import Mathlib

/-!
Shallow embedding of the gas-agency stock-day ledger and cash reconciliation
engine (services/stock_service.py, stock_calculation.py, cash_service.py,
delivery_service.py) over an explicit relational store.

Tables are lists of rows; SQL key joins into uniquely-keyed tables are
modelled with `List.find?` (catalog ids and upsert keys are unique keys).
Each service function takes the store and returns the business result
(`Except BizError α`) together with the resulting store.  A raise before
`db.commit()` rolls the transaction back, so those error paths return the
original store; `calculate_closing_stock` commits before its negative-stock
validation, so that error path returns the updated store, exactly as the
source does.

Integer-valued SQL columns are modelled as `Int` (money included), dates as
`Nat`.  Columns that the DDL (not part of this repository's sources)
defaults are modelled from the spec: summary quantity columns default to 0,
`delivery_issues.delivery_source` defaults to FIELD, and
`delivery_cash_deposit.total_deposited` is the derived column
cash_amount + upi_amount.
-/

inductive DayStatus
  | OPEN
  | CLOSED
deriving DecidableEq, Repr

/-- Row of `stock_days`. -/
structure StockDay where
  id : Nat
  date : Nat
  status : DayStatus
deriving DecidableEq, Repr

inductive Category
  | DOMESTIC
  | COMMERCIAL
deriving DecidableEq, Repr

/-- Row of `cylinder_types` (catalog, read-only for the engine). -/
structure CylinderType where
  id : Nat
  name : String
  category : Category
  is_active : Bool
  display_order : Nat
deriving DecidableEq, Repr

/-- Row of `price_nc_components`, keyed by cylinder type. -/
structure PriceNC where
  typeId : Nat
  deposit_amount : Int
  refill_amount : Int
  document_charge : Int
  installation_charge : Int
  regulator_charge : Int
deriving DecidableEq, Repr

/-- Row of `delivery_boys` (catalog). -/
structure DeliveryBoy where
  id : Nat
  name : String
  is_active : Bool
deriving DecidableEq, Repr

inductive Source
  | FIELD
  | OFFICE
deriving DecidableEq, Repr

/-- Row of `delivery_issues`, keyed by (day, boy, type, source). -/
structure DeliveryIssue where
  dayId : Nat
  boyId : Nat
  typeId : Nat
  delivery_source : Source
  regular_qty : Int
  nc_qty : Int
  dbc_qty : Int
deriving DecidableEq, Repr

/-- Row of `daily_stock_summary`, keyed by (day, type); quantity columns
default to 0 as the first-day initialization INSERT relies on. -/
structure DSSRow where
  dayId : Nat
  typeId : Nat
  opening_filled : Int := 0
  opening_empty : Int := 0
  item_receipt : Int := 0
  item_return : Int := 0
  sales_regular : Int := 0
  nc_qty : Int := 0
  dbc_qty : Int := 0
  tv_out_qty : Int := 0
  closing_filled : Int := 0
  closing_empty : Int := 0
  defective_empty_vehicle : Int := 0
  total_stock : Int := 0
deriving DecidableEq, Repr

/-- Row of `delivery_expected_amount`, keyed by (day, boy). -/
structure DEARow where
  dayId : Nat
  boyId : Nat
  expected_amount : Int
deriving DecidableEq, Repr

/-- Row of `delivery_cash_deposit`, keyed by (day, boy);
`total_deposited` is the derived column cash + upi. -/
structure DepositRow where
  dayId : Nat
  boyId : Nat
  cash_amount : Int
  upi_amount : Int
  total_deposited : Int
deriving DecidableEq, Repr

inductive BalStatus
  | PENDING
  | SETTLED
  | EXCESS
deriving DecidableEq, Repr

/-- Row of `delivery_cash_balance`, keyed by boy only (cross-day). -/
structure BalanceRow where
  boyId : Nat
  opening_balance : Int
  today_expected : Int
  today_deposited : Int
  closing_balance : Int
  balance_status : BalStatus
deriving DecidableEq, Repr

/-- Row of `delivery_vehicle_empty_stock`, keyed by (day, boy, type). -/
structure VehicleRow where
  dayId : Nat
  boyId : Nat
  typeId : Nat
  empty_qty : Int
deriving DecidableEq, Repr

/-- The relational store the services act on. -/
structure Store where
  days : List StockDay := []
  types : List CylinderType := []
  pricing : List PriceNC := []
  boys : List DeliveryBoy := []
  dss : List DSSRow := []
  issues : List DeliveryIssue := []
  dea : List DEARow := []
  deposits : List DepositRow := []
  balances : List BalanceRow := []
  vehicle : List VehicleRow := []
  nextDayId : Nat := 1
deriving DecidableEq, Repr

def emptyStore : Store := {}

/-- Business exceptions of app/core/exceptions.py. -/
inductive BizError
  | dayAlreadyExists (d : String)
  | dayNotOpen (d : String)
  | dayNotFound (d : String)
  | previousDayNotClosed
  | invalidStockData (msg : String)
  | deliveryBoyNotFound (name : String)
  | negativeStock (cylinders : String)
  | business (msg : String)
deriving DecidableEq, Repr

/-- SELECT ... FROM stock_days WHERE stock_date = d (unique key lookup). -/
def findDay (s : Store) (d : Nat) : Option StockDay :=
  s.days.find? (fun x => x.date == d)

/-- ORDER BY stock_date DESC LIMIT 1 over a list of stock days. -/
def pickLatest : List StockDay → Option StockDay
  | [] => none
  | x :: xs =>
    match pickLatest xs with
    | none => some x
    | some b => if x.date < b.date then some b else some x

/-- SELECT ... WHERE stock_date < d ORDER BY stock_date DESC LIMIT 1. -/
def latestBefore (s : Store) (d : Nat) : Option StockDay :=
  pickLatest (s.days.filter (fun x => decide (x.date < d)))

/-- SELECT ... WHERE stock_date < d AND status = CLOSED
ORDER BY stock_date DESC LIMIT 1. -/
def latestClosedBefore (s : Store) (d : Nat) : Option StockDay :=
  pickLatest (s.days.filter
    (fun x => decide (x.date < d) && decide (x.status = DayStatus.CLOSED)))

/-- StockDayService.create_stock_day: STEP 1, create new working day. -/
def createStockDay (s : Store) (d : Nat) : Except BizError StockDay × Store :=
  match findDay s d with
  | some _ => (.error (.dayAlreadyExists (toString d)), s)
  | none =>
    match latestBefore s d with
    | some prev =>
      if prev.status ≠ DayStatus.CLOSED then
        (.error .previousDayNotClosed, s)
      else
        (.ok ⟨s.nextDayId, d, DayStatus.OPEN⟩,
          { s with days := s.days ++ [⟨s.nextDayId, d, DayStatus.OPEN⟩], nextDayId := s.nextDayId + 1 })
    | none =>
      (.ok ⟨s.nextDayId, d, DayStatus.OPEN⟩,
        { s with days := s.days ++ [⟨s.nextDayId, d, DayStatus.OPEN⟩], nextDayId := s.nextDayId + 1 })

/-- StockDayService.close_day: STEP 8, close the working day. -/
def closeDay (s : Store) (d : Nat) : Except BizError DayStatus × Store :=
  match findDay s d with
  | none => (.error (.dayNotFound (toString d)), s)
  | some day =>
    if day.status = DayStatus.CLOSED then
      (.error (.business ("Day " ++ toString d ++ " is already closed")), s)
    else
      (.ok DayStatus.CLOSED,
        { s with days := s.days.map (fun x => if x.id == day.id then { x with status := DayStatus.CLOSED } else x) })

/-- DeliveryService._get_open_day helper. -/
def getOpenDay (s : Store) (d : Nat) : Except BizError StockDay :=
  match findDay s d with
  | none => .error (.dayNotFound (toString d))
  | some day =>
    if day.status ≠ DayStatus.OPEN then .error (.dayNotOpen (toString d))
    else .ok day

/-- Number of stock days currently in status OPEN. -/
def countOpen (s : Store) : Nat :=
  (s.days.filter (fun x => decide (x.status = DayStatus.OPEN))).length

/-- Sum of an integer column over a list of rows. -/
def sumBy (l : List α) (f : α → Int) : Int :=
  (l.map f).sum

/-- Request item of UpdateIOCLMovementsRequest. -/
structure IOCLMovement where
  cylinder_type : String
  received : Int
  returned : Int
deriving DecidableEq, Repr

/-- Request item of RecordDeliverySalesRequest. -/
structure DeliverySale where
  delivery_boy_name : String
  cylinder_type : String
  regular_qty : Int
  nc_qty : Int
  dbc_qty : Int
deriving DecidableEq, Repr

/-- Request item of RecordOfficeSaleRequest. -/
structure OfficeSale where
  cylinder_type : String
  regular_qty : Int
  nc_qty : Int
  dbc_qty : Int
deriving DecidableEq, Repr

/-- Request item of RecordTVOutRequest. -/
structure TVOutEntry where
  delivery_boy_name : String
  cylinder_type : String
  quantity : Int
deriving DecidableEq, Repr

/-- Request item of RecordCashDepositsRequest. -/
structure CashDeposit where
  delivery_boy_name : String
  cash_amount : Int
  upi_amount : Int
deriving DecidableEq, Repr

/-- Success payload reporting only the processed-entry count. -/
structure CountOut where
  stock_date : Nat
  count : Nat
deriving DecidableEq, Repr

/-- Loop body of update_iocl_movements: validate each cylinder type
(active required), then overwrite item_receipt / item_return on the day's
summary row.  An invalid type raises before commit, rolling back. -/
def ioclLoop (types : List CylinderType) (dayId : Nat) (dss : List DSSRow) :
    List IOCLMovement → Except BizError (List DSSRow)
  | [] => .ok dss
  | m :: rest =>
    match types.find? (fun ct => ct.name == m.cylinder_type && ct.is_active) with
    | none => .error (.invalidStockData ("Invalid cylinder type: " ++ m.cylinder_type))
    | some ct =>
      ioclLoop types dayId
        (dss.map (fun r =>
          if r.dayId == dayId && r.typeId == ct.id then
            { r with item_receipt := m.received, item_return := m.returned }
          else r))
        rest

/-- DeliveryService.update_iocl_movements: STEP 3A. -/
def update_iocl_movements (s : Store) (d : Nat) (movements : List IOCLMovement) :
    Except BizError CountOut × Store :=
  match getOpenDay s d with
  | .error e => (.error e, s)
  | .ok day =>
    match ioclLoop s.types day.id s.dss movements with
    | .error e => (.error e, s)
    | .ok dss' => (.ok ⟨d, movements.length⟩, { s with dss := dss' })

/-- INSERT ... ON DUPLICATE KEY UPDATE into delivery_issues; the unique
key is (stock_day_id, delivery_boy_id, cylinder_type_id, delivery_source)
per the data model (§3). -/
def upsertIssue (issues : List DeliveryIssue) (row : DeliveryIssue) : List DeliveryIssue :=
  let hit := fun (i : DeliveryIssue) =>
    i.dayId == row.dayId && i.boyId == row.boyId && i.typeId == row.typeId &&
      decide (i.delivery_source = row.delivery_source)
  if issues.any hit then
    issues.map (fun i =>
      if hit i then
        { i with regular_qty := row.regular_qty, nc_qty := row.nc_qty,
                 dbc_qty := row.dbc_qty }
      else i)
  else issues ++ [row]

/-- Loop body of record_delivery_sales: validate boy (active) and type
(active), then upsert the FIELD-source issue row (full overwrite of the
three quantity fields). -/
def salesLoop (boys : List DeliveryBoy) (types : List CylinderType) (dayId : Nat)
    (issues : List DeliveryIssue) : List DeliverySale → Except BizError (List DeliveryIssue)
  | [] => .ok issues
  | sale :: rest =>
    match boys.find? (fun b => b.name == sale.delivery_boy_name && b.is_active) with
    | none => .error (.deliveryBoyNotFound sale.delivery_boy_name)
    | some boy =>
      match types.find? (fun ct => ct.name == sale.cylinder_type && ct.is_active) with
      | none => .error (.invalidStockData ("Invalid cylinder type: " ++ sale.cylinder_type))
      | some ct =>
        salesLoop boys types dayId
          (upsertIssue issues
            ⟨dayId, boy.id, ct.id, Source.FIELD, sale.regular_qty, sale.nc_qty, sale.dbc_qty⟩)
          rest

/-- DeliveryService.record_delivery_sales: STEP 3B. -/
def record_delivery_sales (s : Store) (d : Nat) (sales : List DeliverySale) :
    Except BizError CountOut × Store :=
  match getOpenDay s d with
  | .error e => (.error e, s)
  | .ok day =>
    match salesLoop s.boys s.types day.id s.issues sales with
    | .error e => (.error e, s)
    | .ok issues' => (.ok ⟨d, sales.length⟩, { s with issues := issues' })

/-- Loop body of record_office_sale: type lookup has no is_active filter;
rows are attributed to the Office boy with source OFFICE. -/
def officeLoop (types : List CylinderType) (dayId officeId : Nat)
    (issues : List DeliveryIssue) : List OfficeSale → Except BizError (List DeliveryIssue)
  | [] => .ok issues
  | sale :: rest =>
    match types.find? (fun ct => ct.name == sale.cylinder_type) with
    | none => .error (.invalidStockData ("Invalid cylinder type: " ++ sale.cylinder_type))
    | some ct =>
      officeLoop types dayId officeId
        (upsertIssue issues
          ⟨dayId, officeId, ct.id, Source.OFFICE, sale.regular_qty, sale.nc_qty, sale.dbc_qty⟩)
        rest

/-- DeliveryService.record_office_sale: STEP 3C. -/
def record_office_sale (s : Store) (d : Nat) (sales : List OfficeSale) :
    Except BizError CountOut × Store :=
  match getOpenDay s d with
  | .error e => (.error e, s)
  | .ok day =>
    match s.boys.find? (fun b => b.name == "Office") with
    | none => (.error (.business "Office delivery boy not configured in system"), s)
    | some office =>
      match officeLoop s.types day.id office.id s.issues sales with
      | .error e => (.error e, s)
      | .ok issues' => (.ok ⟨d, sales.length⟩, { s with issues := issues' })

/-- INSERT ... ON DUPLICATE KEY UPDATE empty_qty = empty_qty + qty into
delivery_vehicle_empty_stock, keyed by (day, boy, type): accumulate. -/
def upsertVehicle (rows : List VehicleRow) (row : VehicleRow) : List VehicleRow :=
  let hit := fun (v : VehicleRow) =>
    v.dayId == row.dayId && v.boyId == row.boyId && v.typeId == row.typeId
  if rows.any hit then
    rows.map (fun v => if hit v then { v with empty_qty := v.empty_qty + row.empty_qty } else v)
  else rows ++ [row]

/-- Loop body of record_tv_out: type lookup without is_active filter;
accumulates tv_out_qty on the day's summary row, and, when the handling
boy name is non-empty and resolves, accumulates the vehicle audit row. -/
def tvLoop (types : List CylinderType) (boys : List DeliveryBoy) (dayId : Nat)
    (dss : List DSSRow) (vehicle : List VehicleRow) :
    List TVOutEntry → Except BizError (List DSSRow × List VehicleRow)
  | [] => .ok (dss, vehicle)
  | e :: rest =>
    match types.find? (fun ct => ct.name == e.cylinder_type) with
    | none => .error (.invalidStockData ("Invalid cylinder type: " ++ e.cylinder_type))
    | some ct =>
      let dss' := dss.map (fun r =>
        if r.dayId == dayId && r.typeId == ct.id then
          { r with tv_out_qty := r.tv_out_qty + e.quantity }
        else r)
      let vehicle' :=
        if e.delivery_boy_name ≠ "" then
          match boys.find? (fun b => b.name == e.delivery_boy_name) with
          | some boy => upsertVehicle vehicle ⟨dayId, boy.id, ct.id, e.quantity⟩
          | none => vehicle
        else vehicle
      tvLoop types boys dayId dss' vehicle' rest

/-- DeliveryService.record_tv_out: STEP 3D. -/
def record_tv_out (s : Store) (d : Nat) (entries : List TVOutEntry) :
    Except BizError CountOut × Store :=
  match getOpenDay s d with
  | .error e => (.error e, s)
  | .ok day =>
    match tvLoop s.types s.boys day.id s.dss s.vehicle entries with
    | .error e => (.error e, s)
    | .ok (dss', vehicle') =>
      (.ok ⟨d, entries.length⟩, { s with dss := dss', vehicle := vehicle' })

/-- Issue rows of a given day and cylinder type (the GROUP of step 4.1). -/
def issuesFor (issues : List DeliveryIssue) (dayId typeId : Nat) : List DeliveryIssue :=
  issues.filter (fun i => i.dayId == dayId && i.typeId == typeId)

/-- Step 4.1 applied to one summary row: the UPDATE ... JOIN (GROUP BY)
only touches rows whose (day, type) group of delivery_issues is
non-empty; other rows keep their previous sales aggregates. -/
def aggregateSalesRow (issues : List DeliveryIssue) (r : DSSRow) : DSSRow :=
  if (issuesFor issues r.dayId r.typeId).isEmpty then r
  else
    { r with sales_regular := sumBy (issuesFor issues r.dayId r.typeId) (·.regular_qty),
             nc_qty := sumBy (issuesFor issues r.dayId r.typeId) (·.nc_qty),
             dbc_qty := sumBy (issuesFor issues r.dayId r.typeId) (·.dbc_qty) }

/-- Offending cylinder-type names of the negative-stock validation query
(summary rows of the day with closing_filled < 0 or closing_empty < 0,
joined to cylinder_types for the name). -/
def negativeNames (types : List CylinderType) (dss : List DSSRow) (dayId : Nat) :
    List String :=
  (dss.filter (fun r =>
      r.dayId == dayId &&
        (decide (r.closing_filled < 0) || decide (r.closing_empty < 0)))).filterMap
    (fun r => (types.find? (fun ct => ct.id == r.typeId)).map (·.name))

/-- Response item of STEP 4 (StockSummaryItem). -/
structure SummaryItem where
  cylinder_type : String
  opening_filled : Int
  opening_empty : Int
  item_receipt : Int
  item_return : Int
  sales_regular : Int
  nc_qty : Int
  dbc_qty : Int
  tv_out_qty : Int
  closing_filled : Int
  closing_empty : Int
  defective_empty_vehicle : Int
  total_stock : Int
deriving DecidableEq, Repr

/-- Summary rows of the day joined to cylinder_types, ordered by the
catalog display order (ORDER BY ct.display_order). -/
def orderedDayRows (types : List CylinderType) (dss : List DSSRow) (dayId : Nat) :
    List (CylinderType × DSSRow) :=
  List.insertionSort (fun a b => a.1.display_order ≤ b.1.display_order)
    ((dss.filter (fun r => r.dayId == dayId)).filterMap
      (fun r => (types.find? (fun ct => ct.id == r.typeId)).map (fun ct => (ct, r))))

/-- Response payload of STEP 4. -/
structure SummaryOut where
  stock_date : Nat
  stocks : List SummaryItem
deriving DecidableEq, Repr

/-- Step 4.1: UPDATE ... JOIN the per-(day, type) sales aggregates onto
the day's summary rows. -/
def step41 (issues : List DeliveryIssue) (dayId : Nat) (dss : List DSSRow) : List DSSRow :=
  dss.map (fun r => if r.dayId == dayId then aggregateSalesRow issues r else r)

/-- Step 4.2: UPDATE closing_filled on the day's summary rows. -/
def step42 (dayId : Nat) (dss : List DSSRow) : List DSSRow :=
  dss.map (fun r =>
    if r.dayId == dayId then
      { r with closing_filled :=
          r.opening_filled + r.item_receipt - (r.sales_regular + r.nc_qty + r.dbc_qty) }
    else r)

/-- Step 4.3: UPDATE closing_empty on the day's summary rows. -/
def step43 (dayId : Nat) (dss : List DSSRow) : List DSSRow :=
  dss.map (fun r =>
    if r.dayId == dayId then
      { r with closing_empty :=
          r.opening_empty + r.sales_regular + r.tv_out_qty - r.item_return }
    else r)

/-- Step 4.4: UPDATE total_stock on the day's summary rows. -/
def step44 (dayId : Nat) (dss : List DSSRow) : List DSSRow :=
  dss.map (fun r =>
    if r.dayId == dayId then
      { r with total_stock :=
          r.closing_filled + r.closing_empty + r.defective_empty_vehicle }
    else r)

/-- StockCalculationService.calculate_closing_stock: STEP 4.  The four
UPDATE statements run and are committed before the negative-stock
validation, so the negative-stock error path returns the updated store. -/
def calculate_closing_stock (s : Store) (d : Nat) : Except BizError SummaryOut × Store :=
  match findDay s d with
  | none => (.error (.dayNotFound (toString d)), s)
  | some day =>
    let dss4 := step44 day.id (step43 day.id (step42 day.id (step41 s.issues day.id s.dss)))
    let s' := { s with dss := dss4 }
    let neg := negativeNames s.types dss4 day.id
    if neg.isEmpty then
      (.ok ⟨d, (orderedDayRows s.types dss4 day.id).map (fun x =>
        ⟨x.1.name, x.2.opening_filled, x.2.opening_empty, x.2.item_receipt,
         x.2.item_return, x.2.sales_regular, x.2.nc_qty, x.2.dbc_qty,
         x.2.tv_out_qty, x.2.closing_filled, x.2.closing_empty,
         x.2.defective_empty_vehicle, x.2.total_stock⟩)⟩, s')
    else
      (.error (.negativeStock (String.intercalate ", " neg)), s')

/-- Response item of STEP 2 (OpeningStockItem). -/
structure OpeningItem where
  cylinder_type : String
  opening_filled : Int
  opening_empty : Int
  defective_empty_vehicle : Int
  total_stock : Int
deriving DecidableEq, Repr

/-- Response payload of STEP 2. -/
structure OpeningOut where
  stock_date : Nat
  stocks : List OpeningItem
deriving DecidableEq, Repr

/-- StockDayService.initialize_opening_stock: STEP 2.  Carry-forward from
the most recent earlier CLOSED day, or zero-valued rows for every active
cylinder type on the first operational day. -/
def initialize_opening_stock (s : Store) (d : Nat) : Except BizError OpeningOut × Store :=
  match findDay s d with
  | none => (.error (.dayNotFound (toString d)), s)
  | some curr =>
    if curr.status ≠ DayStatus.OPEN then
      (.error (.dayNotOpen (toString d)), s)
    else
      let newRows :=
        match latestClosedBefore s d with
        | some prev =>
          (s.dss.filter (fun r => r.dayId == prev.id)).map (fun r =>
            { dayId := curr.id, typeId := r.typeId,
              opening_filled := r.closing_filled,
              opening_empty := r.closing_empty,
              defective_empty_vehicle := r.defective_empty_vehicle,
              total_stock :=
                r.closing_filled + r.closing_empty + r.defective_empty_vehicle : DSSRow })
        | none =>
          (s.types.filter (·.is_active)).map
            (fun ct => { dayId := curr.id, typeId := ct.id : DSSRow })
      let s' := { s with dss := s.dss ++ newRows }
      (.ok ⟨d, (orderedDayRows s.types s'.dss curr.id).map (fun x =>
        ⟨x.1.name, x.2.opening_filled, x.2.opening_empty,
         x.2.defective_empty_vehicle, x.2.total_stock⟩)⟩, s')

/-- Byte-wise lexicographic comparison used to model ORDER BY name. -/
def charListLe : List Char → List Char → Bool
  | [], _ => true
  | _ :: _, [] => false
  | a :: as, b :: bs =>
    if a.toNat < b.toNat then true
    else if b.toNat < a.toNat then false
    else charListLe as bs

/-- Lexicographic order on strings (ORDER BY over a text column). -/
def strLe (a b : String) : Bool := charListLe a.data b.data

/-- Issue rows of the day excluding OFFICE source (the WHERE clause of the
expected-cash aggregation). -/
def nonOfficeIssues (issues : List DeliveryIssue) (dayId : Nat) : List DeliveryIssue :=
  issues.filter (fun i =>
    i.dayId == dayId && decide (i.delivery_source ≠ Source.OFFICE))

/-- JOIN cylinder_types and price_nc_components onto issue rows (inner
joins on the cylinder type key). -/
def issueJoin (types : List CylinderType) (pricing : List PriceNC)
    (is : List DeliveryIssue) : List (DeliveryIssue × CylinderType × PriceNC) :=
  is.flatMap (fun di =>
    (types.filter (fun ct => ct.id == di.typeId)).flatMap (fun ct =>
      (pricing.filter (fun p => p.typeId == di.typeId)).map (fun p => (di, ct, p))))

/-- SUM(regular_qty * refill_amount) over joined rows. -/
def regularAmount (rows : List (DeliveryIssue × CylinderType × PriceNC)) : Int :=
  sumBy rows (fun x => x.1.regular_qty * x.2.2.refill_amount)

/-- SUM(nc_qty * (deposit + refill + document + installation
+ regulator when DOMESTIC)) over joined rows. -/
def ncAmount (rows : List (DeliveryIssue × CylinderType × PriceNC)) : Int :=
  sumBy rows (fun x =>
    x.1.nc_qty *
      (x.2.2.deposit_amount + x.2.2.refill_amount + x.2.2.document_charge +
        x.2.2.installation_charge +
        (if x.2.1.category = Category.DOMESTIC then x.2.2.regulator_charge else 0)))

/-- SUM(dbc_qty * (deposit + refill + document + installation)) over
joined rows; the regulator charge never applies to DBC. -/
def dbcAmount (rows : List (DeliveryIssue × CylinderType × PriceNC)) : Int :=
  sumBy rows (fun x =>
    x.1.dbc_qty *
      (x.2.2.deposit_amount + x.2.2.refill_amount + x.2.2.document_charge +
        x.2.2.installation_charge))

/-- The day's total TV-out refund: SUM(tv_out_qty * deposit_amount) over
the day's summary rows with tv_out_qty > 0 joined to pricing.  The source
query cross-joins every active delivery boy and groups by boy, which gives
every active boy this same day total. -/
def tvOutRefundTotal (pricing : List PriceNC) (dss : List DSSRow) (dayId : Nat) : Int :=
  ((dss.filter (fun r => r.dayId == dayId && decide (0 < r.tv_out_qty))).flatMap
    (fun r => (pricing.filter (fun p => p.typeId == r.typeId)).map
      (fun p => r.tv_out_qty * p.deposit_amount))).sum

/-- Whether the boy row with this id is active (delivery_boys lookup by
unique key; a missing or inactive boy contributes no refund row). -/
def boyActive (boys : List DeliveryBoy) (bId : Nat) : Bool :=
  ((boys.find? (fun b => b.id == bId)).map (·.is_active)).getD false

/-- INSERT ... ON DUPLICATE KEY UPDATE expected_amount into
delivery_expected_amount, keyed by (day, boy). -/
def upsertDea (dea : List DEARow) (row : DEARow) : List DEARow :=
  let hit := fun (e : DEARow) => e.dayId == row.dayId && e.boyId == row.boyId
  if dea.any hit then
    dea.map (fun e => if hit e then { e with expected_amount := row.expected_amount } else e)
  else dea ++ [row]

/-- Response item of STEP 5. -/
structure ExpectedItem where
  delivery_boy_name : String
  expected_amount : Int
deriving DecidableEq, Repr

/-- Response payload of STEP 5. -/
structure ExpectedOut where
  stock_date : Nat
  delivery_boys : List ExpectedItem
  total_expected : Int
deriving DecidableEq, Repr

/-- CashService.calculate_expected_cash: STEP 5.  One row per boy having
non-OFFICE issue rows (surviving the catalog joins); the TV-out refund is
the day's total for every active boy, zero for an inactive boy. -/
def calculate_expected_cash (s : Store) (d : Nat) : Except BizError ExpectedOut × Store :=
  match findDay s d with
  | none => (.error (.dayNotFound (toString d)), s)
  | some day =>
    let joined := issueJoin s.types s.pricing (nonOfficeIssues s.issues day.id)
    let agents := (joined.map (fun x => x.1.boyId)).dedup
    let dea' := agents.foldl (fun acc bId =>
      let rows := joined.filter (fun x => x.1.boyId == bId)
      let expected :=
        regularAmount rows + ncAmount rows + dbcAmount rows -
          (if boyActive s.boys bId then tvOutRefundTotal s.pricing s.dss day.id else 0)
      upsertDea acc ⟨day.id, bId, expected⟩) s.dea
    let s' := { s with dea := dea' }
    let items := List.insertionSort (fun a b => strLe a.delivery_boy_name b.delivery_boy_name = true)
      ((dea'.filter (fun e => e.dayId == day.id)).filterMap (fun e =>
        (s.boys.find? (fun b => b.id == e.boyId)).map
          (fun b => ExpectedItem.mk b.name e.expected_amount)))
    (.ok ⟨d, items, sumBy items (·.expected_amount)⟩, s')

/-- Expected amount of (day, boy) with a missing row defaulting to zero
(IFNULL over the LEFT JOIN on delivery_expected_amount). -/
def deaOrZero (dea : List DEARow) (dayId bId : Nat) : Int :=
  ((dea.find? (fun e => e.dayId == dayId && e.boyId == bId)).map (·.expected_amount)).getD 0

/-- INSERT ... ON DUPLICATE KEY UPDATE into delivery_cash_deposit, keyed
by (day, boy): full overwrite of cash, upi and the derived total. -/
def upsertDeposit (deps : List DepositRow) (row : DepositRow) : List DepositRow :=
  let hit := fun (x : DepositRow) => x.dayId == row.dayId && x.boyId == row.boyId
  if deps.any hit then
    deps.map (fun x =>
      if hit x then
        { x with cash_amount := row.cash_amount, upi_amount := row.upi_amount,
                 total_deposited := row.cash_amount + row.upi_amount }
      else x)
  else deps ++ [row]

/-- Loop body of record_cash_deposits: validate each boy by name (no
is_active filter), then upsert the deposit row. -/
def depositLoop (boys : List DeliveryBoy) (dayId : Nat) (deps : List DepositRow) :
    List CashDeposit → Except BizError (List DepositRow)
  | [] => .ok deps
  | c :: rest =>
    match boys.find? (fun b => b.name == c.delivery_boy_name) with
    | none => .error (.deliveryBoyNotFound c.delivery_boy_name)
    | some boy =>
      depositLoop boys dayId
        (upsertDeposit deps
          ⟨dayId, boy.id, c.cash_amount, c.upi_amount, c.cash_amount + c.upi_amount⟩)
        rest

/-- Response item of STEP 6 (CashDepositSummary). -/
structure DepositView where
  delivery_boy_name : String
  cash_amount : Int
  upi_amount : Int
  total_deposited : Int
  expected_amount : Int
  variance : Int
deriving DecidableEq, Repr

/-- Response payload of STEP 6. -/
structure DepositOut where
  stock_date : Nat
  deposits : List DepositView
  total_cash : Int
  total_upi : Int
  total_deposited : Int
deriving DecidableEq, Repr

/-- CashService.record_cash_deposits: STEP 6.  Upserts each deposit, then
returns the reconciliation view (variance against the expected amount,
defaulting a missing expectation to zero) and the day's grand totals. -/
def record_cash_deposits (s : Store) (d : Nat) (deposits : List CashDeposit) :
    Except BizError DepositOut × Store :=
  match findDay s d with
  | none => (.error (.dayNotFound (toString d)), s)
  | some day =>
    match depositLoop s.boys day.id s.deposits deposits with
    | .error e => (.error e, s)
    | .ok deps' =>
      let s' := { s with deposits := deps' }
      let dayRows := deps'.filter (fun r => r.dayId == day.id)
      let views := List.insertionSort
        (fun a b => strLe a.delivery_boy_name b.delivery_boy_name = true)
        (dayRows.filterMap (fun r =>
          (s.boys.find? (fun b => b.id == r.boyId)).map (fun b =>
            DepositView.mk b.name r.cash_amount r.upi_amount r.total_deposited
              (deaOrZero s.dea day.id r.boyId)
              (r.total_deposited - deaOrZero s.dea day.id r.boyId))))
      (.ok ⟨d, views, sumBy dayRows (·.cash_amount), sumBy dayRows (·.upi_amount),
            sumBy dayRows (·.total_deposited)⟩, s')

/-- Response item of STEP 7 (DeliveryBoyCashBalance). -/
structure BalanceView where
  delivery_boy_name : String
  opening_balance : Int
  today_expected : Int
  today_deposited : Int
  closing_balance : Int
  balance_status : BalStatus
deriving DecidableEq, Repr

/-- Response payload of STEP 7. -/
structure BalanceOut where
  balances : List BalanceView
deriving DecidableEq, Repr

/-- CashService.update_delivery_boy_balances: STEP 7.  Five sequential
UPDATE statements over every balance row: freeze opening, set today's
expected and deposited, derive closing, derive status. -/
def update_delivery_boy_balances (s : Store) (d : Nat) : Except BizError BalanceOut × Store :=
  match findDay s d with
  | none => (.error (.dayNotFound (toString d)), s)
  | some day =>
    let b1 := s.balances.map (fun b => { b with opening_balance := b.closing_balance })
    let b2 := b1.map (fun b => { b with today_expected := deaOrZero s.dea day.id b.boyId })
    let depositedToday := fun (bId : Nat) =>
      sumBy (s.deposits.filter (fun r => r.dayId == day.id && r.boyId == bId))
        (·.total_deposited)
    let b3 := b2.map (fun b => { b with today_deposited := depositedToday b.boyId })
    let b4 := b3.map (fun b =>
      { b with closing_balance := b.opening_balance + b.today_expected - b.today_deposited })
    let statusOf := fun (bal : Int) =>
      if bal = 0 then BalStatus.SETTLED
      else if 0 < bal then BalStatus.PENDING
      else BalStatus.EXCESS
    let b5 := b4.map (fun b => { b with balance_status := statusOf b.closing_balance })
    let views := List.insertionSort
      (fun a b => strLe a.delivery_boy_name b.delivery_boy_name = true)
      (b5.filterMap (fun b =>
        (s.boys.find? (fun x => x.id == b.boyId)).map (fun x =>
          BalanceView.mk x.name b.opening_balance b.today_expected b.today_deposited
            b.closing_balance b.balance_status)))
    (.ok ⟨views⟩, { s with balances := b5 })

/-! ### Day-lifecycle invariant (claim C1) -/

/-- Stores reachable from the empty store through createStockDay and
closeDay alone, where every created date is later than all existing dates
(monotone creation). -/
inductive ReachMono : Store → Prop
  | base : ReachMono emptyStore
  | create (s : Store) (d : Nat) : ReachMono s → (∀ day ∈ s.days, day.date < d) →
      ReachMono (createStockDay s d).2
  | close (s : Store) (d : Nat) : ReachMono s → ReachMono (closeDay s d).2


theorem pickLatest_none_iff {l : List StockDay} : pickLatest l = none ↔ l = [] := by
  cases l with
  | nil => simp [pickLatest]
  | cons x xs =>
    constructor
    · intro h
      exfalso
      simp only [pickLatest] at h
      cases hx : pickLatest xs with
      | none => rw [hx] at h; simp at h
      | some b => rw [hx] at h; simp only at h; split at h <;> simp at h
    · intro h
      exact absurd h (List.cons_ne_nil x xs)

theorem pickLatest_mem : ∀ {l : List StockDay} {b : StockDay},
    pickLatest l = some b → b ∈ l
  | [], b, h => by simp [pickLatest] at h
  | x :: xs, b, h => by
    simp only [pickLatest] at h
    cases hx : pickLatest xs with
    | none =>
      rw [hx] at h
      simp only at h
      injection h with h
      rw [← h]
      exact List.mem_cons_self x xs
    | some c =>
      rw [hx] at h
      simp only at h
      by_cases hlt : x.date < c.date
      · rw [if_pos hlt] at h
        injection h with h
        rw [← h]
        exact List.mem_cons_of_mem _ (pickLatest_mem hx)
      · rw [if_neg hlt] at h
        injection h with h
        rw [← h]
        exact List.mem_cons_self x xs

theorem pickLatest_max : ∀ {l : List StockDay} {b : StockDay},
    pickLatest l = some b → ∀ x ∈ l, x.date ≤ b.date
  | [], b, h => by simp [pickLatest] at h
  | x :: xs, b, h => by
    simp only [pickLatest] at h
    cases hx : pickLatest xs with
    | none =>
      rw [hx] at h
      simp only at h
      injection h with h
      rw [pickLatest_none_iff] at hx
      subst hx
      intro y hy
      rcases List.mem_cons.mp hy with rfl | hy'
      · rw [h]
      · cases hy'
    | some c =>
      rw [hx] at h
      simp only at h
      by_cases hlt : x.date < c.date
      · rw [if_pos hlt] at h
        injection h with h
        subst h
        intro y hy
        rcases List.mem_cons.mp hy with rfl | hy'
        · omega
        · exact pickLatest_max hx y hy'
      · rw [if_neg hlt] at h
        injection h with h
        subst h
        intro y hy
        rcases List.mem_cons.mp hy with rfl | hy'
        · exact le_rfl
        · exact le_trans (pickLatest_max hx y hy') (by omega)

/-- In a list of stock days with pairwise distinct dates, equal dates force
equal rows. -/
theorem eq_of_date_eq_of_pairwise {l : List StockDay}
    (h : l.Pairwise (fun a b => a.date ≠ b.date)) {a b : StockDay}
    (ha : a ∈ l) (hb : b ∈ l) (hd : a.date = b.date) : a = b := by
  induction l with
  | nil => cases ha
  | cons x xs ih =>
    rw [List.pairwise_cons] at h
    rcases List.mem_cons.mp ha with rfl | ha' <;> rcases List.mem_cons.mp hb with rfl | hb'
    · rfl
    · exact absurd hd (h.1 b hb')
    · exact absurd hd.symm (h.1 a ha')
    · exact ih h.2 ha' hb'

/-- The day-table invariant: any OPEN day has the maximal date, and dates
are pairwise distinct. -/
def InvDays (s : Store) : Prop :=
  (∀ a ∈ s.days, a.status = DayStatus.OPEN → ∀ b ∈ s.days, b.date ≤ a.date) ∧
  s.days.Pairwise (fun a b => a.date ≠ b.date)

theorem invDays_create (s : Store) (d : Nat) (hI : InvDays s)
    (hm : ∀ day ∈ s.days, day.date < d) : InvDays (createStockDay s d).2 := by
  unfold createStockDay
  cases hf : findDay s d with
  | some day => exact hI
  | none =>
    simp only
    have hfilter : s.days.filter (fun x => decide (x.date < d)) = s.days :=
      List.filter_eq_self.mpr (fun a ha => decide_eq_true (hm a ha))
    cases hl : latestBefore s d with
    | none =>
      simp only
      have hnil : s.days = [] := by
        have h2 := hl
        unfold latestBefore at h2
        rw [hfilter] at h2
        exact pickLatest_none_iff.mp h2
      refine ⟨?_, ?_⟩
      · intro a ha _ b hb
        simp only [hnil, List.nil_append, List.mem_singleton] at ha hb
        rw [ha, hb]
      · simp only [hnil, List.nil_append]
        exact List.pairwise_singleton _ _
    | some prev =>
      simp only
      have hprevmem : prev ∈ s.days := by
        have h2 := hl
        unfold latestBefore at h2
        rw [hfilter] at h2
        exact pickLatest_mem h2
      have hprevmax : ∀ x ∈ s.days, x.date ≤ prev.date := by
        have h2 := hl
        unfold latestBefore at h2
        rw [hfilter] at h2
        exact pickLatest_max h2
      by_cases hstat : prev.status = DayStatus.CLOSED
      · rw [if_neg (not_not_intro hstat)]
        refine ⟨?_, ?_⟩
        · intro a ha haopen b hb
          rcases List.mem_append.mp ha with ha' | ha'
          · exfalso
            have h1 : prev.date ≤ a.date := hI.1 a ha' haopen prev hprevmem
            have h2 : a.date ≤ prev.date := hprevmax a ha'
            have heq : a = prev :=
              eq_of_date_eq_of_pairwise hI.2 ha' hprevmem (le_antisymm h2 h1)
            rw [heq, hstat] at haopen
            exact DayStatus.noConfusion haopen
          · rw [List.mem_singleton] at ha'
            rcases List.mem_append.mp hb with hb' | hb'
            · have := hm b hb'
              rw [ha']
              exact Nat.le_of_lt this
            · rw [List.mem_singleton] at hb'
              rw [ha', hb']
        · rw [List.pairwise_append]
          refine ⟨hI.2, List.pairwise_singleton _ _, ?_⟩
          intro a ha b hb
          rw [List.mem_singleton] at hb
          rw [hb]
          exact Nat.ne_of_lt (hm a ha)
      · rw [if_pos hstat]
        exact hI

theorem invDays_close (s : Store) (d : Nat) (hI : InvDays s) :
    InvDays (closeDay s d).2 := by
  unfold closeDay
  cases hf : findDay s d with
  | none => exact hI
  | some day =>
    simp only
    by_cases hstat : day.status = DayStatus.CLOSED
    · rw [if_pos hstat]
      exact hI
    · rw [if_neg hstat]
      refine ⟨?_, ?_⟩
      · intro a ha haopen b hb
        rcases List.mem_map.mp ha with ⟨a0, ha0, rfl⟩
        rcases List.mem_map.mp hb with ⟨b0, hb0, rfl⟩
        have hda : ∀ x : StockDay,
            ((if x.id == day.id then { x with status := DayStatus.CLOSED } else x) : StockDay).date
              = x.date := by
          intro x
          split <;> rfl
        rw [hda a0, hda b0]
        have ha0open : a0.status = DayStatus.OPEN := by
          by_cases hid : (a0.id == day.id) = true
          · rw [if_pos hid] at haopen
            exact absurd haopen (by simp)
          · rw [if_neg hid] at haopen
            exact haopen
        exact hI.1 a0 ha0 ha0open b0 hb0
      · rw [List.pairwise_map]
        refine hI.2.imp ?_
        intro a b h
        have hda : ∀ x : StockDay,
            ((if x.id == day.id then { x with status := DayStatus.CLOSED } else x) : StockDay).date
              = x.date := by
          intro x
          split <;> rfl
        rw [hda a, hda b]
        exact h

theorem reachMono_invDays {s : Store} (h : ReachMono s) : InvDays s := by
  induction h with
  | base =>
    refine ⟨?_, ?_⟩
    · intro a ha
      cases ha
    · exact List.Pairwise.nil
  | create s d _ hm ih => exact invDays_create s d ih hm
  | close s d _ ih => exact invDays_close s d ih

/-- A filter along a predicate that no two list positions can jointly
satisfy keeps at most one element. -/
theorem filter_length_le_one {α : Type} {p : α → Bool} {l : List α}
    (h : l.Pairwise (fun a b => ¬(p a = true ∧ p b = true))) :
    (l.filter p).length ≤ 1 := by
  induction l with
  | nil => simp
  | cons x xs ih =>
    rw [List.pairwise_cons] at h
    by_cases hx : p x = true
    · have hrest : xs.filter p = [] := by
        rw [List.filter_eq_nil_iff]
        intro a ha hpa
        exact h.1 a ha ⟨hx, hpa⟩
      simp [hx, hrest]
    · simp only [List.filter_cons, hx, if_false]
      exact ih h.2

theorem invDays_countOpen {s : Store} (hI : InvDays s) : countOpen s ≤ 1 := by
  unfold countOpen
  apply filter_length_le_one
  apply hI.2.imp_of_mem
  intro a b ha hb hne
  simp only [decide_eq_true_eq]
  rintro ⟨hao, hbo⟩
  exact hne (le_antisymm (hI.1 b hb hbo a ha) (hI.1 a ha hao b hb))

/-- C1 counterexample: the claimed invariant fails as stated.  Starting
from the empty store, createStockDay 5 succeeds and leaves day 5 OPEN;
createStockDay 3 then also succeeds, because no day earlier than 3 exists
so the previous-day-closed check is skipped — leaving two OPEN days. -/
theorem C1_counterexample :
    (createStockDay emptyStore 5).1.isOk = true ∧
    (createStockDay (createStockDay emptyStore 5).2 3).1.isOk = true ∧
    countOpen (createStockDay (createStockDay emptyStore 5).2 3).2 = 2 :=
  ⟨by decide, by decide, by decide⟩

/-- C1 (amended): along createDay/closeDay sequences from the empty store
whose created dates are each later than every existing date, at most one
StockDay is OPEN at any time; createDay(d) fails with DayAlreadyExists
whenever a StockDay for d exists, and fails with PreviousDayNotClosed
whenever no day for d exists and the most recent StockDay with an earlier
date is not CLOSED. -/
theorem C1_single_open_invariant :
    (∀ s : Store, ReachMono s → countOpen s ≤ 1) ∧
    (∀ (s : Store) (d : Nat), (∃ day ∈ s.days, day.date = d) →
      (createStockDay s d).1 = Except.error (BizError.dayAlreadyExists (toString d))) ∧
    (∀ (s : Store) (d : Nat) (p : StockDay), (∀ day ∈ s.days, day.date ≠ d) →
      latestBefore s d = some p → p.status ≠ DayStatus.CLOSED →
      (createStockDay s d).1 = Except.error BizError.previousDayNotClosed) := by
  refine ⟨?_, ?_, ?_⟩
  · intro s hs
    exact invDays_countOpen (reachMono_invDays hs)
  · intro s d ⟨day, hmem, hdate⟩
    unfold createStockDay
    cases hf : findDay s d with
    | some x => rfl
    | none =>
      exfalso
      have := List.find?_eq_none.mp hf day hmem
      simp only [beq_iff_eq] at this
      exact this hdate
  · intro s d p hne hl hp
    have hf : findDay s d = none := by
      apply List.find?_eq_none.mpr
      intro a ha
      simp only [beq_iff_eq]
      exact hne a ha
    unfold createStockDay
    rw [hf]
    simp only
    rw [hl]
    simp only
    rw [if_pos hp]

/-- Witness for C1_single_open_invariant at concrete inputs. -/
theorem C1_single_open_invariant_witness :
    countOpen (closeDay (createStockDay emptyStore 1).2 1).2 ≤ 1 ∧
    (createStockDay (createStockDay emptyStore 5).2 5).1
        = Except.error (BizError.dayAlreadyExists (toString (5 : Nat))) ∧
    (createStockDay (createStockDay emptyStore 1).2 2).1
        = Except.error BizError.previousDayNotClosed := by
  refine ⟨?_, ?_, ?_⟩
  · exact C1_single_open_invariant.1 _
      (ReachMono.close _ 1 (ReachMono.create emptyStore 1 ReachMono.base (by decide)))
  · exact C1_single_open_invariant.2.1 _ 5 ⟨⟨1, 5, DayStatus.OPEN⟩, by decide, rfl⟩
  · exact C1_single_open_invariant.2.2 _ 2 ⟨1, 1, DayStatus.OPEN⟩
      (by decide) (by decide) (by decide)

/-- Store exercising the negative-stock path of calculate_closing_stock:
an OPEN day with opening_filled 5 of type "14.2KG" and 0 of type "19KG",
no receipts, and regular field sales of 10 and 1. -/
def negStockStore : Store :=
  { days := [⟨1, 10, DayStatus.OPEN⟩],
    types := [⟨7, "14.2KG", Category.DOMESTIC, true, 1⟩,
              ⟨8, "19KG", Category.COMMERCIAL, true, 2⟩],
    boys := [⟨2, "Ravi", true⟩],
    dss := [{ dayId := 1, typeId := 7, opening_filled := 5 }, { dayId := 1, typeId := 8 }],
    issues := [⟨1, 2, 7, Source.FIELD, 10, 0, 0⟩, ⟨1, 2, 8, Source.FIELD, 1, 0, 0⟩] }

/-- C2: calculate_closing_stock on a day that would go negative does fail
with NegativeStock naming every offending cylinder type (batched), but the
db.commit() at stock_calculation.py:82 runs before the validation at
lines 85-95, so the written summary rows — including the negative
closing_filled values and the recomputed sales aggregates — are retained
after the failure, contradicting the claimed atomicity. -/
theorem C2_commit_before_validation :
    (calculate_closing_stock negStockStore 10).1
        = Except.error (BizError.negativeStock "14.2KG, 19KG") ∧
    (calculate_closing_stock negStockStore 10).2.dss
        = [{ dayId := 1, typeId := 7, opening_filled := 5, sales_regular := 10,
             closing_filled := -5, closing_empty := 10, total_stock := 5 },
           { dayId := 1, typeId := 8, sales_regular := 1,
             closing_filled := -1, closing_empty := 1, total_stock := 0 }] ∧
    (calculate_closing_stock negStockStore 10).2.dss ≠ negStockStore.dss :=
  ⟨rfl, by decide, by decide⟩

/-! ### Conservation after calculate_closing_stock (claim C3) -/

theorem sumBy_filter_source (l : List DeliveryIssue) (f : DeliveryIssue → Int) :
    sumBy l f =
      sumBy (l.filter (fun i => decide (i.delivery_source = Source.FIELD))) f +
      sumBy (l.filter (fun i => decide (i.delivery_source = Source.OFFICE))) f := by
  induction l with
  | nil => simp [sumBy]
  | cons x xs ih =>
    cases hx : x.delivery_source <;>
      simp only [sumBy, List.filter_cons, hx, List.map_cons, List.sum_cons] at ih ⊢ <;>
      simp only [decide_eq_true_eq, reduceCtorEq, if_true, if_false] <;>
      simp [sumBy] at ih ⊢ <;> omega

theorem aggregateSalesRow_preserved (issues : List DeliveryIssue) (r : DSSRow) :
    (aggregateSalesRow issues r).dayId = r.dayId ∧
    (aggregateSalesRow issues r).typeId = r.typeId ∧
    (aggregateSalesRow issues r).opening_filled = r.opening_filled ∧
    (aggregateSalesRow issues r).opening_empty = r.opening_empty ∧
    (aggregateSalesRow issues r).item_receipt = r.item_receipt ∧
    (aggregateSalesRow issues r).item_return = r.item_return ∧
    (aggregateSalesRow issues r).tv_out_qty = r.tv_out_qty ∧
    (aggregateSalesRow issues r).defective_empty_vehicle = r.defective_empty_vehicle := by
  unfold aggregateSalesRow
  split <;> exact ⟨rfl, rfl, rfl, rfl, rfl, rfl, rfl, rfl⟩

/-- The store component of calculate_closing_stock on an existing day is
exactly the four committed UPDATE steps, on success and on the
negative-stock failure alike. -/
theorem calc_store_dss (s : Store) (d : Nat) (day : StockDay)
    (hday : findDay s d = some day) :
    (calculate_closing_stock s d).2.dss
      = step44 day.id (step43 day.id (step42 day.id (step41 s.issues day.id s.dss))) := by
  unfold calculate_closing_stock
  rw [hday]
  simp only
  split <;> rfl


/-- Composite effect of update steps 4.1-4.4 on a single summary row of
the day. -/
def closeRow (issues : List DeliveryIssue) (r0 : DSSRow) : DSSRow :=
  { aggregateSalesRow issues r0 with
      closing_filled :=
        (aggregateSalesRow issues r0).opening_filled + (aggregateSalesRow issues r0).item_receipt
          - ((aggregateSalesRow issues r0).sales_regular + (aggregateSalesRow issues r0).nc_qty
              + (aggregateSalesRow issues r0).dbc_qty),
      closing_empty :=
        (aggregateSalesRow issues r0).opening_empty + (aggregateSalesRow issues r0).sales_regular
          + (aggregateSalesRow issues r0).tv_out_qty - (aggregateSalesRow issues r0).item_return,
      total_stock :=
        ((aggregateSalesRow issues r0).opening_filled + (aggregateSalesRow issues r0).item_receipt
          - ((aggregateSalesRow issues r0).sales_regular + (aggregateSalesRow issues r0).nc_qty
              + (aggregateSalesRow issues r0).dbc_qty))
        + ((aggregateSalesRow issues r0).opening_empty + (aggregateSalesRow issues r0).sales_regular
          + (aggregateSalesRow issues r0).tv_out_qty - (aggregateSalesRow issues r0).item_return)
        + (aggregateSalesRow issues r0).defective_empty_vehicle }

theorem step_chain_eq (issues : List DeliveryIssue) (dayId : Nat) (dss : List DSSRow) :
    step44 dayId (step43 dayId (step42 dayId (step41 issues dayId dss)))
      = dss.map (fun r0 => if r0.dayId == dayId then closeRow issues r0 else r0) := by
  unfold step41 step42 step43 step44
  rw [List.map_map, List.map_map, List.map_map]
  apply List.map_congr_left
  intro r0 _
  by_cases h : (r0.dayId == dayId) = true
  · have hA : (aggregateSalesRow issues r0).dayId = r0.dayId :=
      (aggregateSalesRow_preserved issues r0).1
    simp only [Function.comp_apply, if_pos h, hA, closeRow]
  · simp only [Function.comp_apply, if_neg h]

theorem closeRow_closing_filled (issues : List DeliveryIssue) (r0 : DSSRow) :
    (closeRow issues r0).closing_filled
      = (closeRow issues r0).opening_filled + (closeRow issues r0).item_receipt
        - ((closeRow issues r0).sales_regular + (closeRow issues r0).nc_qty
            + (closeRow issues r0).dbc_qty) := rfl

theorem closeRow_closing_empty (issues : List DeliveryIssue) (r0 : DSSRow) :
    (closeRow issues r0).closing_empty
      = (closeRow issues r0).opening_empty + (closeRow issues r0).sales_regular
        + (closeRow issues r0).tv_out_qty - (closeRow issues r0).item_return := rfl

theorem closeRow_total_stock (issues : List DeliveryIssue) (r0 : DSSRow) :
    (closeRow issues r0).total_stock
      = (closeRow issues r0).closing_filled + (closeRow issues r0).closing_empty
        + (closeRow issues r0).defective_empty_vehicle := rfl

/-- C3: after a successful calculateClosingStock on an existing day, every
summary row of that day carries sales_regular, nc_qty and dbc_qty equal to
the sums of the matching DeliveryIssue quantities over FIELD and OFFICE
sources, and satisfies the closing_filled, closing_empty and total_stock
conservation identities.  The hstale hypothesis states that day rows with
an empty issue group carry zero sales aggregates, which holds for every
row the engine itself created (they are inserted with zero defaults and
only ever overwritten with group sums while issue rows are never deleted).
The success hypothesis mirrors the claim wording. -/
theorem C3_conservation (s : Store) (d : Nat) (day : StockDay)
    (hday : findDay s d = some day)
    (hstale : ∀ r ∈ s.dss, r.dayId = day.id →
      issuesFor s.issues day.id r.typeId = [] →
      r.sales_regular = 0 ∧ r.nc_qty = 0 ∧ r.dbc_qty = 0)
    (hok : (calculate_closing_stock s d).1.isOk = true) :
    ∀ r ∈ (calculate_closing_stock s d).2.dss, r.dayId = day.id →
      (r.sales_regular
          = sumBy ((issuesFor s.issues day.id r.typeId).filter
              (fun i => decide (i.delivery_source = Source.FIELD))) (·.regular_qty)
            + sumBy ((issuesFor s.issues day.id r.typeId).filter
              (fun i => decide (i.delivery_source = Source.OFFICE))) (·.regular_qty)) ∧
      (r.nc_qty
          = sumBy ((issuesFor s.issues day.id r.typeId).filter
              (fun i => decide (i.delivery_source = Source.FIELD))) (·.nc_qty)
            + sumBy ((issuesFor s.issues day.id r.typeId).filter
              (fun i => decide (i.delivery_source = Source.OFFICE))) (·.nc_qty)) ∧
      (r.dbc_qty
          = sumBy ((issuesFor s.issues day.id r.typeId).filter
              (fun i => decide (i.delivery_source = Source.FIELD))) (·.dbc_qty)
            + sumBy ((issuesFor s.issues day.id r.typeId).filter
              (fun i => decide (i.delivery_source = Source.OFFICE))) (·.dbc_qty)) ∧
      r.closing_filled
          = r.opening_filled + r.item_receipt - (r.sales_regular + r.nc_qty + r.dbc_qty) ∧
      r.closing_empty
          = r.opening_empty + r.sales_regular + r.tv_out_qty - r.item_return ∧
      r.total_stock
          = r.closing_filled + r.closing_empty + r.defective_empty_vehicle := by
  intro r hr hrd
  rw [calc_store_dss s d day hday, step_chain_eq] at hr
  obtain ⟨r0, hr0, rfl⟩ := List.mem_map.mp hr
  by_cases hc : (r0.dayId == day.id) = true
  · rw [if_pos hc] at hrd ⊢
    have hr0d : r0.dayId = day.id := by simpa using hc
    have htype : (closeRow s.issues r0).typeId = r0.typeId :=
      (aggregateSalesRow_preserved s.issues r0).2.1
    refine ⟨?_, ?_, ?_, closeRow_closing_filled s.issues r0,
      closeRow_closing_empty s.issues r0, closeRow_total_stock s.issues r0⟩
    · show (aggregateSalesRow s.issues r0).sales_regular = _
      rw [htype]
      unfold aggregateSalesRow
      by_cases hg : (issuesFor s.issues r0.dayId r0.typeId).isEmpty
      · rw [if_pos hg]
        have hempty : issuesFor s.issues day.id r0.typeId = [] := by
          rw [← hr0d]
          exact List.isEmpty_iff.mp hg
        rw [hempty]
        simpa [sumBy] using (hstale r0 hr0 hr0d hempty).1
      · rw [if_neg hg]
        show sumBy (issuesFor s.issues r0.dayId r0.typeId) (·.regular_qty) = _
        rw [hr0d]
        exact sumBy_filter_source _ _
    · show (aggregateSalesRow s.issues r0).nc_qty = _
      rw [htype]
      unfold aggregateSalesRow
      by_cases hg : (issuesFor s.issues r0.dayId r0.typeId).isEmpty
      · rw [if_pos hg]
        have hempty : issuesFor s.issues day.id r0.typeId = [] := by
          rw [← hr0d]
          exact List.isEmpty_iff.mp hg
        rw [hempty]
        simpa [sumBy] using (hstale r0 hr0 hr0d hempty).2.1
      · rw [if_neg hg]
        show sumBy (issuesFor s.issues r0.dayId r0.typeId) (·.nc_qty) = _
        rw [hr0d]
        exact sumBy_filter_source _ _
    · show (aggregateSalesRow s.issues r0).dbc_qty = _
      rw [htype]
      unfold aggregateSalesRow
      by_cases hg : (issuesFor s.issues r0.dayId r0.typeId).isEmpty
      · rw [if_pos hg]
        have hempty : issuesFor s.issues day.id r0.typeId = [] := by
          rw [← hr0d]
          exact List.isEmpty_iff.mp hg
        rw [hempty]
        simpa [sumBy] using (hstale r0 hr0 hr0d hempty).2.2
      · rw [if_neg hg]
        show sumBy (issuesFor s.issues r0.dayId r0.typeId) (·.dbc_qty) = _
        rw [hr0d]
        exact sumBy_filter_source _ _
  · rw [if_neg hc] at hrd
    exact absurd (by simp [hrd] : (r0.dayId == day.id) = true) hc

/-- Store of a representative successful day closing: opening 10 filled /
1 empty, receipt 3, return 1, field sales (regular 2, nc 1) and office
sales (regular 1, dbc 1) of the one cylinder type. -/
def consStore : Store :=
  { days := [⟨1, 10, DayStatus.OPEN⟩],
    types := [⟨7, "14.2KG", Category.DOMESTIC, true, 1⟩],
    boys := [⟨2, "Ravi", true⟩, ⟨3, "Office", true⟩],
    dss := [{ dayId := 1, typeId := 7, opening_filled := 10, opening_empty := 1,
              item_receipt := 3, item_return := 1 }],
    issues := [⟨1, 2, 7, Source.FIELD, 2, 1, 0⟩, ⟨1, 3, 7, Source.OFFICE, 1, 0, 1⟩] }

/-- The summary row calculate_closing_stock produces on consStore. -/
def consRow : DSSRow :=
  { dayId := 1, typeId := 7, opening_filled := 10, opening_empty := 1,
    item_receipt := 3, item_return := 1, sales_regular := 3, nc_qty := 1,
    dbc_qty := 1, tv_out_qty := 0, closing_filled := 8, closing_empty := 3,
    defective_empty_vehicle := 0, total_stock := 11 }

/-- Witness for C3_conservation on consStore. -/
theorem C3_conservation_witness :
    consRow.closing_filled
        = consRow.opening_filled + consRow.item_receipt
          - (consRow.sales_regular + consRow.nc_qty + consRow.dbc_qty) ∧
    consRow.closing_empty
        = consRow.opening_empty + consRow.sales_regular + consRow.tv_out_qty
          - consRow.item_return ∧
    consRow.total_stock
        = consRow.closing_filled + consRow.closing_empty + consRow.defective_empty_vehicle :=
  let h := C3_conservation consStore 10 ⟨1, 10, DayStatus.OPEN⟩ (by decide) (by decide)
    (by decide) consRow (by decide) rfl
  ⟨h.2.2.2.1, h.2.2.2.2.1, h.2.2.2.2.2⟩

/-- C6: initializeOpeningStock on an OPEN day copies, for every cylinder
type row of the most recent earlier CLOSED day, that row's closing_filled,
closing_empty and defective_empty_vehicle into the current day's opening
figures with total_stock their sum; with no earlier CLOSED day it creates
zero-valued rows for every active cylinder type; it fails with DayNotFound
when the day is missing and DayNotOpen when it is not OPEN. -/
theorem C6_initialize_opening :
    (∀ (s : Store) (d : Nat) (curr prev : StockDay),
      findDay s d = some curr → curr.status = DayStatus.OPEN →
      latestClosedBefore s d = some prev →
      (initialize_opening_stock s d).1.isOk = true ∧
      ∀ r ∈ s.dss, r.dayId = prev.id →
        ∃ r' ∈ (initialize_opening_stock s d).2.dss,
          r'.dayId = curr.id ∧ r'.typeId = r.typeId ∧
          r'.opening_filled = r.closing_filled ∧
          r'.opening_empty = r.closing_empty ∧
          r'.defective_empty_vehicle = r.defective_empty_vehicle ∧
          r'.total_stock = r.closing_filled + r.closing_empty + r.defective_empty_vehicle) ∧
    (∀ (s : Store) (d : Nat) (curr : StockDay),
      findDay s d = some curr → curr.status = DayStatus.OPEN →
      latestClosedBefore s d = none →
      (initialize_opening_stock s d).1.isOk = true ∧
      ∀ ct ∈ s.types, ct.is_active = true →
        ∃ r' ∈ (initialize_opening_stock s d).2.dss,
          r'.dayId = curr.id ∧ r'.typeId = ct.id ∧
          r'.opening_filled = 0 ∧ r'.opening_empty = 0 ∧
          r'.defective_empty_vehicle = 0 ∧ r'.total_stock = 0) ∧
    (∀ (s : Store) (d : Nat), findDay s d = none →
      (initialize_opening_stock s d).1 = Except.error (BizError.dayNotFound (toString d))) ∧
    (∀ (s : Store) (d : Nat) (curr : StockDay), findDay s d = some curr →
      curr.status ≠ DayStatus.OPEN →
      (initialize_opening_stock s d).1 = Except.error (BizError.dayNotOpen (toString d))) := by
  refine ⟨?_, ?_, ?_, ?_⟩
  · intro s d curr prev hday hopen hprev
    unfold initialize_opening_stock
    rw [hday]
    simp only
    rw [if_neg (not_not_intro hopen), hprev]
    simp only
    refine ⟨rfl, ?_⟩
    intro r hr hrd
    refine ⟨{ dayId := curr.id, typeId := r.typeId,
              opening_filled := r.closing_filled,
              opening_empty := r.closing_empty,
              defective_empty_vehicle := r.defective_empty_vehicle,
              total_stock :=
                r.closing_filled + r.closing_empty + r.defective_empty_vehicle }, ?_,
            rfl, rfl, rfl, rfl, rfl, rfl⟩
    apply List.mem_append_right
    apply List.mem_map_of_mem
    exact List.mem_filter.mpr ⟨hr, by simp [hrd]⟩
  · intro s d curr hday hopen hprev
    unfold initialize_opening_stock
    rw [hday]
    simp only
    rw [if_neg (not_not_intro hopen), hprev]
    simp only
    refine ⟨rfl, ?_⟩
    intro ct hct hact
    refine ⟨{ dayId := curr.id, typeId := ct.id }, ?_, rfl, rfl, rfl, rfl, rfl, rfl⟩
    apply List.mem_append_right
    apply List.mem_map_of_mem
    exact List.mem_filter.mpr ⟨hct, by simp [hact]⟩
  · intro s d hday
    unfold initialize_opening_stock
    rw [hday]
  · intro s d curr hday hnopen
    unfold initialize_opening_stock
    rw [hday]
    simp only
    rw [if_pos hnopen]

/-- Store realizing the spec's carry-forward example: day 9 CLOSED with
closing_filled 40, closing_empty 10, defective 2; day 10 OPEN. -/
def carryStore : Store :=
  { days := [⟨1, 9, DayStatus.CLOSED⟩, ⟨2, 10, DayStatus.OPEN⟩],
    types := [⟨7, "14.2KG", Category.DOMESTIC, true, 1⟩],
    dss := [{ dayId := 1, typeId := 7, closing_filled := 40, closing_empty := 10,
              defective_empty_vehicle := 2 }] }

/-- Witness for C6_initialize_opening on carryStore: opening 40/10/2,
total 52 as in the spec's example. -/
theorem C6_initialize_opening_witness :
    (initialize_opening_stock carryStore 10).1.isOk = true ∧
    (initialize_opening_stock carryStore 10).2.dss.any
      (fun r' => r'.dayId == 2 && r'.typeId == 7 && r'.opening_filled == 40 &&
        r'.opening_empty == 10 && r'.defective_empty_vehicle == 2 && r'.total_stock == 52) = true := by
  have h := C6_initialize_opening.1 carryStore 10 ⟨2, 10, DayStatus.OPEN⟩ ⟨1, 9, DayStatus.CLOSED⟩
    (by decide) rfl (by decide)
  refine ⟨h.1, ?_⟩
  obtain ⟨r', hmem, hd, ht, h1, h2, h3, h4⟩ := h.2
    { dayId := 1, typeId := 7, closing_filled := 40, closing_empty := 10,
      defective_empty_vehicle := 2 } (by decide) rfl
  rw [List.any_eq_true]
  exact ⟨r', hmem, by simp [hd, ht, h1, h2, h3, h4]⟩

/-! ### Balance roller (claims C5, C7) -/

/-- Composite effect of update steps 7.1-7.5 on a single balance row. -/
def updatedBalance (s : Store) (day : StockDay) (b : BalanceRow) : BalanceRow :=
  { boyId := b.boyId,
    opening_balance := b.closing_balance,
    today_expected := deaOrZero s.dea day.id b.boyId,
    today_deposited :=
      sumBy (s.deposits.filter (fun r => r.dayId == day.id && r.boyId == b.boyId))
        (·.total_deposited),
    closing_balance :=
      b.closing_balance + deaOrZero s.dea day.id b.boyId
        - sumBy (s.deposits.filter (fun r => r.dayId == day.id && r.boyId == b.boyId))
            (·.total_deposited),
    balance_status :=
      if (b.closing_balance + deaOrZero s.dea day.id b.boyId
          - sumBy (s.deposits.filter (fun r => r.dayId == day.id && r.boyId == b.boyId))
              (·.total_deposited)) = 0 then BalStatus.SETTLED
      else if 0 < (b.closing_balance + deaOrZero s.dea day.id b.boyId
          - sumBy (s.deposits.filter (fun r => r.dayId == day.id && r.boyId == b.boyId))
              (·.total_deposited)) then BalStatus.PENDING
      else BalStatus.EXCESS }

theorem balances_after_update (s : Store) (d : Nat) (day : StockDay)
    (hday : findDay s d = some day) :
    (update_delivery_boy_balances s d).2.balances
      = s.balances.map (updatedBalance s day) := by
  unfold update_delivery_boy_balances
  rw [hday]
  simp only
  rw [List.map_map, List.map_map, List.map_map, List.map_map]
  apply List.map_congr_left
  intro b _
  rfl

theorem zip_map_self {α β : Type} (g : α → β) (l : List α) :
    List.zip l (l.map g) = l.map (fun a => (a, g a)) := by
  induction l with
  | nil => rfl
  | cons x xs ih => simp [List.zip_cons_cons, ih]

/-- C5: after updateBalances on an existing day, every balance row has
opening_balance equal to its previous closing_balance, today_expected the
day's expected amount (zero when absent), today_deposited the day's summed
deposits (zero when absent), closing_balance = opening + expected -
deposited, and status SETTLED / PENDING / EXCESS by the sign of the
closing balance. -/
theorem C5_balance_roll (s : Store) (d : Nat) (day : StockDay)
    (hday : findDay s d = some day) :
    (update_delivery_boy_balances s d).1.isOk = true ∧
    (update_delivery_boy_balances s d).2.balances.length = s.balances.length ∧
    ∀ p ∈ List.zip s.balances (update_delivery_boy_balances s d).2.balances,
      p.2.boyId = p.1.boyId ∧
      p.2.opening_balance = p.1.closing_balance ∧
      p.2.today_expected = deaOrZero s.dea day.id p.1.boyId ∧
      p.2.today_deposited
          = sumBy (s.deposits.filter (fun r => r.dayId == day.id && r.boyId == p.1.boyId))
              (·.total_deposited) ∧
      p.2.closing_balance
          = p.2.opening_balance + p.2.today_expected - p.2.today_deposited ∧
      (p.2.closing_balance = 0 → p.2.balance_status = BalStatus.SETTLED) ∧
      (0 < p.2.closing_balance → p.2.balance_status = BalStatus.PENDING) ∧
      (p.2.closing_balance < 0 → p.2.balance_status = BalStatus.EXCESS) := by
  refine ⟨?_, ?_, ?_⟩
  · unfold update_delivery_boy_balances
    rw [hday]
    rfl
  · rw [balances_after_update s d day hday]
    exact List.length_map _ _
  · rw [balances_after_update s d day hday, zip_map_self]
    intro p hp
    obtain ⟨b, hb, rfl⟩ := List.mem_map.mp hp
    have hcb : (b, updatedBalance s day b).2.closing_balance
        = b.closing_balance + deaOrZero s.dea day.id b.boyId
          - sumBy (s.deposits.filter (fun r => r.dayId == day.id && r.boyId == b.boyId))
              (·.total_deposited) := rfl
    refine ⟨rfl, rfl, rfl, rfl, rfl, ?_, ?_, ?_⟩
    · intro hz
      rw [hcb] at hz
      show (if _ then _ else _) = _
      rw [if_pos hz]
    · intro hz
      rw [hcb] at hz
      show (if _ then _ else _) = _
      rw [if_neg (by omega), if_pos hz]
    · intro hz
      rw [hcb] at hz
      show (if _ then _ else _) = _
      rw [if_neg (by omega), if_neg (by omega)]

/-- Store with one agent balance at zero, expected 900 and deposits
totalling 800 on the day. -/
def balStore : Store :=
  { days := [⟨1, 10, DayStatus.OPEN⟩],
    boys := [⟨2, "Ravi", true⟩],
    dea := [⟨1, 2, 900⟩],
    deposits := [⟨1, 2, 500, 300, 800⟩],
    balances := [{ boyId := 2, opening_balance := 0, today_expected := 0,
                   today_deposited := 0, closing_balance := 0,
                   balance_status := BalStatus.SETTLED }] }

def preBalRow : BalanceRow :=
  { boyId := 2, opening_balance := 0, today_expected := 0, today_deposited := 0,
    closing_balance := 0, balance_status := BalStatus.SETTLED }

def postBalRow : BalanceRow :=
  { boyId := 2, opening_balance := 0, today_expected := 900, today_deposited := 800,
    closing_balance := 100, balance_status := BalStatus.PENDING }

/-- Witness for C5_balance_roll: expected 900, deposited 800 rolls a zero
balance to closing 100 with status PENDING. -/
theorem C5_balance_roll_witness :
    (update_delivery_boy_balances balStore 10).1.isOk = true ∧
    postBalRow.opening_balance = preBalRow.closing_balance ∧
    postBalRow.closing_balance
        = postBalRow.opening_balance + postBalRow.today_expected - postBalRow.today_deposited ∧
    postBalRow.balance_status = BalStatus.PENDING := by
  have h := C5_balance_roll balStore 10 ⟨1, 10, DayStatus.OPEN⟩ (by decide)
  have hp := h.2.2 (preBalRow, postBalRow) (by decide)
  exact ⟨h.1, hp.2.1, hp.2.2.2.2.1, hp.2.2.2.2.2.2.1 (by decide)⟩

/-- Store with an existing day, an agent balance, and no
DeliveryExpectedAmount rows at all. -/
def noDeaStore : Store :=
  { days := [⟨1, 10, DayStatus.OPEN⟩],
    boys := [⟨2, "Ravi", true⟩],
    balances := [preBalRow] }

/-- C7 counterexample: updateBalances succeeds on a day whose expected
cash was never computed — the only enforced precondition is that the day
exists, so the claimed failure does not happen. -/
theorem C7_counterexample :
    (update_delivery_boy_balances noDeaStore 10).1.isOk = true := by decide

/-- C7 (amended): updateBalances succeeds whenever the day exists, even
when no DeliveryExpectedAmount row exists for the day; the missing
expectation is treated as zero in every balance row. -/
theorem C7_no_expected_precondition (s : Store) (d : Nat) (day : StockDay)
    (hday : findDay s d = some day)
    (hnodea : ∀ e ∈ s.dea, e.dayId ≠ day.id) :
    (update_delivery_boy_balances s d).1.isOk = true ∧
    ∀ b ∈ (update_delivery_boy_balances s d).2.balances, b.today_expected = 0 := by
  refine ⟨?_, ?_⟩
  · unfold update_delivery_boy_balances
    rw [hday]
    rfl
  · rw [balances_after_update s d day hday]
    intro b hb
    obtain ⟨b0, _, rfl⟩ := List.mem_map.mp hb
    show deaOrZero s.dea day.id b0.boyId = 0
    unfold deaOrZero
    have : s.dea.find? (fun e => e.dayId == day.id && e.boyId == b0.boyId) = none := by
      apply List.find?_eq_none.mpr
      intro e he
      simp only [Bool.and_eq_true, beq_iff_eq, not_and]
      intro hd
      exact absurd hd (hnodea e he)
    rw [this]
    rfl

/-- Witness for C7_no_expected_precondition on noDeaStore. -/
theorem C7_no_expected_precondition_witness :
    (update_delivery_boy_balances noDeaStore 10).1.isOk = true ∧
    (update_delivery_boy_balances noDeaStore 10).2.balances.all
      (fun b => b.today_expected == 0) = true := by
  have h := C7_no_expected_precondition noDeaStore 10 ⟨1, 10, DayStatus.OPEN⟩
    (by decide) (by decide)
  refine ⟨h.1, ?_⟩
  rw [List.all_eq_true]
  intro b hb
  simp [h.2 b hb]

/-! ### Expected cash (claim C4) -/

/-- Upserted expected-amount rows for a key carry exactly the upserted
value, such rows exist, and foreign-key rows are untouched. -/
def GoodDea (dayId : Nat) (E : Nat → Int) (acc : List DEARow) (b : Nat) : Prop :=
  (∃ e ∈ acc, e.dayId = dayId ∧ e.boyId = b) ∧
  (∀ e ∈ acc, e.dayId = dayId → e.boyId = b → e.expected_amount = E b)

theorem upsertDea_same (dea : List DEARow) (row : DEARow) :
    ∀ e ∈ upsertDea dea row, e.dayId = row.dayId → e.boyId = row.boyId →
      e.expected_amount = row.expected_amount := by
  unfold upsertDea
  by_cases h : dea.any (fun e => e.dayId == row.dayId && e.boyId == row.boyId) = true
  · rw [if_pos h]
    intro e he hd hb
    obtain ⟨e0, he0, rfl⟩ := List.mem_map.mp he
    by_cases h0 : (e0.dayId == row.dayId && e0.boyId == row.boyId) = true
    · rw [if_pos h0]
    · rw [if_neg h0] at hd hb ⊢
      exact absurd (by simp [hd, hb]) h0
  · rw [if_neg h]
    intro e he hd hb
    rcases List.mem_append.mp he with h1 | h1
    · exfalso
      apply h
      rw [List.any_eq_true]
      exact ⟨e, h1, by simp [hd, hb]⟩
    · rw [List.mem_singleton] at h1
      rw [h1]

theorem upsertDea_exists (dea : List DEARow) (row : DEARow) :
    ∃ e ∈ upsertDea dea row, e.dayId = row.dayId ∧ e.boyId = row.boyId := by
  unfold upsertDea
  by_cases h : dea.any (fun e => e.dayId == row.dayId && e.boyId == row.boyId) = true
  · rw [if_pos h]
    obtain ⟨e0, he0, h0⟩ := List.any_eq_true.mp h
    refine ⟨if (e0.dayId == row.dayId && e0.boyId == row.boyId) = true then
      { e0 with expected_amount := row.expected_amount } else e0,
      List.mem_map_of_mem _ he0, ?_⟩
    rw [if_pos h0]
    simp only [Bool.and_eq_true, beq_iff_eq] at h0
    exact ⟨h0.1, h0.2⟩
  · rw [if_neg h]
    exact ⟨row, List.mem_append_right _ (List.mem_singleton_self row), rfl, rfl⟩

theorem upsertDea_mem_of_ne (dea : List DEARow) (row : DEARow) :
    ∀ e ∈ upsertDea dea row, ¬(e.dayId = row.dayId ∧ e.boyId = row.boyId) → e ∈ dea := by
  unfold upsertDea
  by_cases h : dea.any (fun e => e.dayId == row.dayId && e.boyId == row.boyId) = true
  · rw [if_pos h]
    intro e he hne
    obtain ⟨e0, he0, rfl⟩ := List.mem_map.mp he
    by_cases h0 : (e0.dayId == row.dayId && e0.boyId == row.boyId) = true
    · rw [if_pos h0] at hne
      simp only [Bool.and_eq_true, beq_iff_eq] at h0
      exact absurd ⟨h0.1, h0.2⟩ hne
    · rw [if_neg h0]
      exact he0
  · rw [if_neg h]
    intro e he hne
    rcases List.mem_append.mp he with h1 | h1
    · exact h1
    · rw [List.mem_singleton] at h1
      rw [h1] at hne
      exact absurd ⟨rfl, rfl⟩ hne

theorem upsertDea_keep (dea : List DEARow) (row : DEARow) (e : DEARow) (he : e ∈ dea)
    (hne : ¬(e.dayId = row.dayId ∧ e.boyId = row.boyId)) : e ∈ upsertDea dea row := by
  unfold upsertDea
  by_cases h : dea.any (fun x => x.dayId == row.dayId && x.boyId == row.boyId) = true
  · rw [if_pos h]
    have : (if (e.dayId == row.dayId && e.boyId == row.boyId) = true then
        { e with expected_amount := row.expected_amount } else e) = e := by
      rw [if_neg]
      intro hcon
      simp only [Bool.and_eq_true, beq_iff_eq] at hcon
      exact hne ⟨hcon.1, hcon.2⟩
    rw [← this]
    exact List.mem_map_of_mem _ he
  · rw [if_neg h]
    exact List.mem_append_left _ he

theorem goodDea_upsert_self (dayId : Nat) (E : Nat → Int) (acc : List DEARow) (b : Nat) :
    GoodDea dayId E (upsertDea acc ⟨dayId, b, E b⟩) b :=
  ⟨upsertDea_exists acc ⟨dayId, b, E b⟩,
   fun e he hd hb => upsertDea_same acc ⟨dayId, b, E b⟩ e he hd hb⟩

theorem goodDea_upsert_other (dayId : Nat) (E : Nat → Int) (acc : List DEARow) (b b' : Nat)
    (hbb : b ≠ b') (hg : GoodDea dayId E acc b) :
    GoodDea dayId E (upsertDea acc ⟨dayId, b', E b'⟩) b := by
  obtain ⟨⟨e, he, hd, hb⟩, hall⟩ := hg
  constructor
  · exact ⟨e, upsertDea_keep acc _ e he (fun hcon => hbb (hb ▸ hcon.2)), hd, hb⟩
  · intro e' he' hd' hb'
    have : e' ∈ acc := upsertDea_mem_of_ne acc _ e' he' (fun hcon => hbb (hb' ▸ hcon.2))
    exact hall e' this hd' hb'

theorem foldl_upsertDea_good (dayId : Nat) (E : Nat → Int) :
    ∀ (L : List Nat) (acc : List DEARow) (b : Nat),
      (b ∈ L ∨ GoodDea dayId E acc b) →
      GoodDea dayId E (L.foldl (fun acc bId => upsertDea acc ⟨dayId, bId, E bId⟩) acc) b := by
  intro L
  induction L with
  | nil =>
    intro acc b h
    rcases h with h | h
    · cases h
    · exact h
  | cons b0 rest ih =>
    intro acc b h
    rw [List.foldl_cons]
    by_cases hb0 : b = b0
    · subst hb0
      exact ih _ b (Or.inr (goodDea_upsert_self dayId E acc b))
    · rcases h with h | h
      · rcases List.mem_cons.mp h with h1 | h1
        · exact absurd h1 hb0
        · exact ih _ b (Or.inl h1)
      · exact ih _ b (Or.inr (goodDea_upsert_other dayId E acc b b0 hb0 h))

theorem sumBy_add3 (l : List α) (f g h : α → Int) :
    sumBy l f + sumBy l g + sumBy l h = sumBy l (fun x => f x + g x + h x) := by
  induction l with
  | nil => simp [sumBy]
  | cons x xs ih =>
    simp only [sumBy, List.map_cons, List.sum_cons] at ih ⊢
    omega

/-- C4: for every active agent with non-OFFICE issue rows surviving the
catalog joins on an existing day, calculate_expected_cash writes an
expected-amount row equal to the sum over the agent's joined issue rows of
regular*refill + nc*(deposit+refill+document+installation+regulator when
DOMESTIC) + dbc*(deposit+refill+document+installation, never regulator),
minus the day's total TV-out refund, which is applied identically to
every active agent rather than partitioned per agent. -/
theorem C4_expected_cash (s : Store) (d : Nat) (day : StockDay) (boy : DeliveryBoy)
    (hday : findDay s d = some day)
    (hfind : s.boys.find? (fun x => x.id == boy.id) = some boy)
    (hact : boy.is_active = true)
    (hrows : ∃ x ∈ issueJoin s.types s.pricing (nonOfficeIssues s.issues day.id),
      x.1.boyId = boy.id) :
    (calculate_expected_cash s d).1.isOk = true ∧
    (∃ e ∈ (calculate_expected_cash s d).2.dea, e.dayId = day.id ∧ e.boyId = boy.id) ∧
    (∀ e ∈ (calculate_expected_cash s d).2.dea, e.dayId = day.id → e.boyId = boy.id →
      e.expected_amount
        = sumBy ((issueJoin s.types s.pricing (nonOfficeIssues s.issues day.id)).filter
            (fun x => x.1.boyId == boy.id))
            (fun x =>
              x.1.regular_qty * x.2.2.refill_amount
              + x.1.nc_qty * (x.2.2.deposit_amount + x.2.2.refill_amount + x.2.2.document_charge
                  + x.2.2.installation_charge
                  + (if x.2.1.category = Category.DOMESTIC then x.2.2.regulator_charge else 0))
              + x.1.dbc_qty * (x.2.2.deposit_amount + x.2.2.refill_amount + x.2.2.document_charge
                  + x.2.2.installation_charge))
          - tvOutRefundTotal s.pricing s.dss day.id) := by
  have hmem : boy.id ∈ ((issueJoin s.types s.pricing (nonOfficeIssues s.issues day.id)).map
      (fun x => x.1.boyId)).dedup := by
    rw [List.mem_dedup]
    obtain ⟨x, hx, hxb⟩ := hrows
    exact List.mem_map.mpr ⟨x, hx, hxb⟩
  have hgood := foldl_upsertDea_good day.id
    (fun bId =>
      regularAmount ((issueJoin s.types s.pricing (nonOfficeIssues s.issues day.id)).filter
        (fun x => x.1.boyId == bId))
      + ncAmount ((issueJoin s.types s.pricing (nonOfficeIssues s.issues day.id)).filter
        (fun x => x.1.boyId == bId))
      + dbcAmount ((issueJoin s.types s.pricing (nonOfficeIssues s.issues day.id)).filter
        (fun x => x.1.boyId == bId))
      - (if boyActive s.boys bId then tvOutRefundTotal s.pricing s.dss day.id else 0))
    ((issueJoin s.types s.pricing (nonOfficeIssues s.issues day.id)).map
      (fun x => x.1.boyId)).dedup
    s.dea boy.id (Or.inl hmem)
  have hdea : (calculate_expected_cash s d).2.dea
      = (((issueJoin s.types s.pricing (nonOfficeIssues s.issues day.id)).map
          (fun x => x.1.boyId)).dedup).foldl
        (fun acc bId => upsertDea acc ⟨day.id, bId,
          regularAmount ((issueJoin s.types s.pricing (nonOfficeIssues s.issues day.id)).filter
            (fun x => x.1.boyId == bId))
          + ncAmount ((issueJoin s.types s.pricing (nonOfficeIssues s.issues day.id)).filter
            (fun x => x.1.boyId == bId))
          + dbcAmount ((issueJoin s.types s.pricing (nonOfficeIssues s.issues day.id)).filter
            (fun x => x.1.boyId == bId))
          - (if boyActive s.boys bId then tvOutRefundTotal s.pricing s.dss day.id else 0)⟩)
        s.dea := by
    unfold calculate_expected_cash
    rw [hday]
  have hActive : boyActive s.boys boy.id = true := by
    unfold boyActive
    rw [hfind]
    simpa using hact
  refine ⟨?_, ?_, ?_⟩
  · unfold calculate_expected_cash
    rw [hday]
    rfl
  · rw [hdea]
    exact hgood.1
  · rw [hdea]
    intro e he hd hb
    have hE := hgood.2 e he hd hb
    simp only at hE
    rw [hE, hActive, if_pos rfl]
    unfold regularAmount ncAmount dbcAmount
    rw [sumBy_add3]

/-- Store with the spec's DOMESTIC pricing example (deposit 500, refill
900, document 50, installation 100, regulator 150), field sales of
regular 2 / nc 1 / dbc 1 and one TV-out on the day. -/
def cashStore : Store :=
  { days := [⟨1, 10, DayStatus.OPEN⟩],
    types := [⟨7, "14.2KG", Category.DOMESTIC, true, 1⟩],
    pricing := [⟨7, 500, 900, 50, 100, 150⟩],
    boys := [⟨2, "Ravi", true⟩],
    dss := [{ dayId := 1, typeId := 7, tv_out_qty := 1 }],
    issues := [⟨1, 2, 7, Source.FIELD, 2, 1, 1⟩] }


/-- Witness for C4_expected_cash on cashStore: 2*900 + 1700 + 1550 - 500
= 4550, with nc_amount 1700 matching the spec pricing example. -/
theorem C4_expected_cash_witness :
    (calculate_expected_cash cashStore 10).1.isOk = true ∧
    (calculate_expected_cash cashStore 10).2.dea.any
      (fun e => e.dayId == 1 && e.boyId == 2 && e.expected_amount == 4550) = true := by
  have h := C4_expected_cash cashStore 10 ⟨1, 10, DayStatus.OPEN⟩ ⟨2, "Ravi", true⟩
    (by decide) (by decide) rfl
    ⟨(⟨1, 2, 7, Source.FIELD, 2, 1, 1⟩, ⟨7, "14.2KG", Category.DOMESTIC, true, 1⟩,
      ⟨7, 500, 900, 50, 100, 150⟩), by decide, rfl⟩
  refine ⟨h.1, ?_⟩
  obtain ⟨e, he, hd, hb⟩ := h.2.1
  have hv := h.2.2 e he hd hb
  rw [List.any_eq_true]
  refine ⟨e, he, ?_⟩
  have hnum : sumBy ((issueJoin cashStore.types cashStore.pricing
      (nonOfficeIssues cashStore.issues 1)).filter (fun x => x.1.boyId == 2))
      (fun x =>
        x.1.regular_qty * x.2.2.refill_amount
        + x.1.nc_qty * (x.2.2.deposit_amount + x.2.2.refill_amount + x.2.2.document_charge
            + x.2.2.installation_charge
            + (if x.2.1.category = Category.DOMESTIC then x.2.2.regulator_charge else 0))
        + x.1.dbc_qty * (x.2.2.deposit_amount + x.2.2.refill_amount + x.2.2.document_charge
            + x.2.2.installation_charge))
      - tvOutRefundTotal cashStore.pricing cashStore.dss 1 = 4550 := by decide
  rw [hnum] at hv
  simp [hd, hb, hv]

/-! ### Overwrite vs accumulate semantics (claim C8) -/

theorem map_self_of_eq {α : Type} (f : α → α) (l : List α) (h : ∀ x ∈ l, f x = x) :
    l.map f = l := by
  induction l with
  | nil => rfl
  | cons x xs ih =>
    rw [List.map_cons, h x (List.mem_cons_self x xs),
      ih (fun y hy => h y (List.mem_cons_of_mem _ hy))]


theorem upsertIssue_idem (l : List DeliveryIssue) (row : DeliveryIssue) :
    upsertIssue (upsertIssue l row) row = upsertIssue l row := by
  unfold upsertIssue
  by_cases h : l.any (fun i => i.dayId == row.dayId && i.boyId == row.boyId &&
      i.typeId == row.typeId && decide (i.delivery_source = row.delivery_source)) = true
  · rw [if_pos h]
    have hany : (l.map (fun i =>
        if (i.dayId == row.dayId && i.boyId == row.boyId && i.typeId == row.typeId &&
            decide (i.delivery_source = row.delivery_source)) = true then
          { i with regular_qty := row.regular_qty, nc_qty := row.nc_qty, dbc_qty := row.dbc_qty }
        else i)).any (fun i => i.dayId == row.dayId && i.boyId == row.boyId &&
          i.typeId == row.typeId && decide (i.delivery_source = row.delivery_source)) = true := by
      obtain ⟨e0, he0, h0⟩ := List.any_eq_true.mp h
      rw [List.any_eq_true]
      refine ⟨_, List.mem_map_of_mem _ he0, ?_⟩
      rw [if_pos h0]
      simpa using h0
    rw [if_pos hany, List.map_map]
    apply List.map_congr_left
    intro i _
    simp only [Function.comp_apply]
    by_cases hi : (i.dayId == row.dayId && i.boyId == row.boyId && i.typeId == row.typeId &&
        decide (i.delivery_source = row.delivery_source)) = true
    · rw [if_pos hi, if_pos (by simpa using hi)]
    · rw [if_neg hi, if_neg hi]
  · rw [if_neg h]
    have hany : (l ++ [row]).any (fun i => i.dayId == row.dayId && i.boyId == row.boyId &&
        i.typeId == row.typeId && decide (i.delivery_source = row.delivery_source)) = true := by
      rw [List.any_eq_true]
      exact ⟨row, List.mem_append_right _ (List.mem_singleton_self row), by simp⟩
    rw [if_pos hany, List.map_append]
    have h1 : l.map (fun i =>
        if (i.dayId == row.dayId && i.boyId == row.boyId && i.typeId == row.typeId &&
            decide (i.delivery_source = row.delivery_source)) = true then
          { i with regular_qty := row.regular_qty, nc_qty := row.nc_qty, dbc_qty := row.dbc_qty }
        else i) = l := by
      apply map_self_of_eq
      intro x hx
      rw [if_neg]
      intro hcon
      apply h
      rw [List.any_eq_true]
      exact ⟨x, hx, hcon⟩
    rw [h1]
    simp

theorem sales_resubmit_idem (s : Store) (d : Nat) (sale : DeliverySale)
    (hok : (record_delivery_sales s d [sale]).1.isOk = true) :
    record_delivery_sales (record_delivery_sales s d [sale]).2 d [sale]
      = record_delivery_sales s d [sale] := by
  cases hg : getOpenDay s d with
  | error e =>
    exfalso
    unfold record_delivery_sales at hok
    rw [hg] at hok
    exact Bool.noConfusion hok
  | ok day =>
    cases hb : s.boys.find? (fun b => b.name == sale.delivery_boy_name && b.is_active) with
    | none =>
      exfalso
      unfold record_delivery_sales salesLoop at hok
      rw [hg] at hok
      simp only at hok
      rw [hb] at hok
      exact Bool.noConfusion hok
    | some boy =>
      cases hct : s.types.find? (fun ct => ct.name == sale.cylinder_type && ct.is_active) with
      | none =>
        exfalso
        unfold record_delivery_sales salesLoop at hok
        rw [hg] at hok
        simp only at hok
        rw [hb] at hok
        simp only at hok
        rw [hct] at hok
        exact Bool.noConfusion hok
      | some ct =>
        have e1 : record_delivery_sales s d [sale]
            = (.ok ⟨d, 1⟩, { s with issues := upsertIssue s.issues ⟨day.id, boy.id, ct.id, Source.FIELD, sale.regular_qty, sale.nc_qty, sale.dbc_qty⟩ }) := by
          unfold record_delivery_sales salesLoop
          rw [hg]
          simp only
          rw [hb]
          simp only
          rw [hct]
          simp only [salesLoop]
          rfl
        rw [e1]
        have hg2 : getOpenDay ({ s with issues := upsertIssue s.issues ⟨day.id, boy.id, ct.id, Source.FIELD, sale.regular_qty, sale.nc_qty, sale.dbc_qty⟩ } : Store) d = .ok day := hg
        have hb2 : ({ s with issues := upsertIssue s.issues ⟨day.id, boy.id, ct.id, Source.FIELD, sale.regular_qty, sale.nc_qty, sale.dbc_qty⟩ } : Store).boys.find? (fun b => b.name == sale.delivery_boy_name && b.is_active) = some boy := hb
        have hct2 : ({ s with issues := upsertIssue s.issues ⟨day.id, boy.id, ct.id, Source.FIELD, sale.regular_qty, sale.nc_qty, sale.dbc_qty⟩ } : Store).types.find? (fun c => c.name == sale.cylinder_type && c.is_active) = some ct := hct
        unfold record_delivery_sales salesLoop
        rw [hg2]
        simp only
        rw [hb2]
        simp only
        rw [hct2]
        simp only [salesLoop, upsertIssue_idem]
        rfl

/-- Accumulated TV-out audit quantity of a (day, boy, type) key. -/
def vehicleSum (v : List VehicleRow) (dayId boyId typeId : Nat) : Int :=
  sumBy (v.filter (fun x => x.dayId == dayId && x.boyId == boyId && x.typeId == typeId))
    (·.empty_qty)

/-- Number of audit rows of a (day, boy, type) key (at most one in any
store the engine builds, the key being unique). -/
def vehicleCount (v : List VehicleRow) (dayId boyId typeId : Nat) : Nat :=
  (v.filter (fun x => x.dayId == dayId && x.boyId == boyId && x.typeId == typeId)).length

theorem filter_map_pred_pres {α : Type} (f : α → α) (p : α → Bool)
    (hf : ∀ x, p (f x) = p x) (l : List α) :
    (l.map f).filter p = (l.filter p).map f := by
  induction l with
  | nil => rfl
  | cons x xs ih =>
    by_cases hx : p x = true
    · rw [List.map_cons, List.filter_cons, List.filter_cons, if_pos hx,
        if_pos (by rw [hf x]; exact hx), List.map_cons, ih]
    · rw [List.map_cons, List.filter_cons, List.filter_cons,
        if_neg (by rw [hf x]; exact hx), if_neg hx, ih]

theorem upsertVehicle_sum (v : List VehicleRow) (row : VehicleRow)
    (hcount : vehicleCount v row.dayId row.boyId row.typeId ≤ 1) :
    vehicleSum (upsertVehicle v row) row.dayId row.boyId row.typeId
      = vehicleSum v row.dayId row.boyId row.typeId + row.empty_qty ∧
    vehicleCount (upsertVehicle v row) row.dayId row.boyId row.typeId ≤ 1 := by
  unfold vehicleSum vehicleCount at *
  unfold upsertVehicle
  by_cases h : v.any (fun x => x.dayId == row.dayId && x.boyId == row.boyId &&
      x.typeId == row.typeId) = true
  · rw [if_pos h]
    have hpres : ∀ x : VehicleRow,
        ((if (x.dayId == row.dayId && x.boyId == row.boyId && x.typeId == row.typeId) = true
          then { x with empty_qty := x.empty_qty + row.empty_qty } else x).dayId == row.dayId &&
         (if (x.dayId == row.dayId && x.boyId == row.boyId && x.typeId == row.typeId) = true
          then { x with empty_qty := x.empty_qty + row.empty_qty } else x).boyId == row.boyId &&
         (if (x.dayId == row.dayId && x.boyId == row.boyId && x.typeId == row.typeId) = true
          then { x with empty_qty := x.empty_qty + row.empty_qty } else x).typeId == row.typeId)
          = (x.dayId == row.dayId && x.boyId == row.boyId && x.typeId == row.typeId) := by
      intro x
      by_cases hx : (x.dayId == row.dayId && x.boyId == row.boyId && x.typeId == row.typeId) = true
      · rw [if_pos hx]
      · rw [if_neg hx]
    rw [filter_map_pred_pres _ _ hpres]
    have hne : v.filter (fun x => x.dayId == row.dayId && x.boyId == row.boyId &&
        x.typeId == row.typeId) ≠ [] := by
      obtain ⟨e0, he0, h0⟩ := List.any_eq_true.mp h
      intro hcon
      have : e0 ∈ v.filter (fun x => x.dayId == row.dayId && x.boyId == row.boyId &&
          x.typeId == row.typeId) := List.mem_filter.mpr ⟨he0, h0⟩
      rw [hcon] at this
      cases this
    have hone : ∃ x0, v.filter (fun x => x.dayId == row.dayId && x.boyId == row.boyId &&
        x.typeId == row.typeId) = [x0] := by
      rcases hl : v.filter (fun x => x.dayId == row.dayId && x.boyId == row.boyId &&
          x.typeId == row.typeId) with _ | ⟨x0, rest⟩
      · exact absurd hl hne
      · rw [hl] at hcount
        simp only [List.length_cons] at hcount
        have : rest = [] := List.eq_nil_of_length_eq_zero (by omega)
        exact ⟨x0, by rw [hl, this]⟩
    obtain ⟨x0, hx0⟩ := hone
    rw [hx0]
    have hx0p : (x0.dayId == row.dayId && x0.boyId == row.boyId && x0.typeId == row.typeId)
        = true := by
      have : x0 ∈ v.filter (fun x => x.dayId == row.dayId && x.boyId == row.boyId &&
          x.typeId == row.typeId) := by rw [hx0]; exact List.mem_singleton_self x0
      exact (List.mem_filter.mp this).2
    rw [List.map_cons, List.map_nil, if_pos hx0p]
    constructor
    · simp [sumBy]
    · simp
  · rw [if_neg h]
    rw [List.filter_append]
    have hnil : v.filter (fun x => x.dayId == row.dayId && x.boyId == row.boyId &&
        x.typeId == row.typeId) = [] := by
      rw [List.filter_eq_nil_iff]
      intro a ha hpa
      exact h (List.any_eq_true.mpr ⟨a, ha, hpa⟩)
    rw [hnil]
    rw [List.filter_cons, if_pos (by simp), List.filter_nil]
    constructor
    · simp [sumBy]
    · simp

theorem upsertVehicle_sum_at (v : List VehicleRow) (row : VehicleRow)
    (dayId boyId typeId : Nat) (h1 : row.dayId = dayId) (h2 : row.boyId = boyId)
    (h3 : row.typeId = typeId) (hcount : vehicleCount v dayId boyId typeId ≤ 1) :
    vehicleSum (upsertVehicle v row) dayId boyId typeId
      = vehicleSum v dayId boyId typeId + row.empty_qty ∧
    vehicleCount (upsertVehicle v row) dayId boyId typeId ≤ 1 := by
  subst h1 h2 h3
  exact upsertVehicle_sum v row hcount

theorem tv_once (s : Store) (d : Nat) (day : StockDay) (ct : CylinderType)
    (boy : DeliveryBoy) (e : TVOutEntry)
    (hday : getOpenDay s d = .ok day)
    (hct : s.types.find? (fun c => c.name == e.cylinder_type) = some ct)
    (hne : e.delivery_boy_name ≠ "")
    (hboy : s.boys.find? (fun b => b.name == e.delivery_boy_name) = some boy) :
    record_tv_out s d [e]
      = (.ok ⟨d, 1⟩, { s with
          dss := s.dss.map (fun r => if r.dayId == day.id && r.typeId == ct.id then { r with tv_out_qty := r.tv_out_qty + e.quantity } else r),
          vehicle := upsertVehicle s.vehicle ⟨day.id, boy.id, ct.id, e.quantity⟩ }) := by
  unfold record_tv_out tvLoop
  rw [hday]
  simp only
  rw [hct]
  simp only
  rw [if_pos hne, hboy]
  simp only [tvLoop]
  rfl

/-- C8: re-submitting the same field-sales entry is an idempotent
overwrite — the second call returns the very same result and store —
whereas re-submitting the same TV-out entry of quantity q accumulates:
every summary row of that day and type gains 2q on tv_out_qty and the
handling agent's vehicle-empty audit quantity grows by 2q. -/
theorem C8_overwrite_vs_accumulate :
    (∀ (s : Store) (d : Nat) (sale : DeliverySale),
      (record_delivery_sales s d [sale]).1.isOk = true →
      record_delivery_sales (record_delivery_sales s d [sale]).2 d [sale]
        = record_delivery_sales s d [sale]) ∧
    (∀ (s : Store) (d : Nat) (day : StockDay) (ct : CylinderType) (boy : DeliveryBoy)
        (e : TVOutEntry),
      getOpenDay s d = .ok day →
      s.types.find? (fun c => c.name == e.cylinder_type) = some ct →
      e.delivery_boy_name ≠ "" →
      s.boys.find? (fun b => b.name == e.delivery_boy_name) = some boy →
      vehicleCount s.vehicle day.id boy.id ct.id ≤ 1 →
      (record_tv_out (record_tv_out s d [e]).2 d [e]).1.isOk = true ∧
      (∀ p ∈ List.zip s.dss (record_tv_out (record_tv_out s d [e]).2 d [e]).2.dss,
        p.1.dayId = day.id → p.1.typeId = ct.id →
        p.2.tv_out_qty = p.1.tv_out_qty + 2 * e.quantity) ∧
      vehicleSum (record_tv_out (record_tv_out s d [e]).2 d [e]).2.vehicle day.id boy.id ct.id
        = vehicleSum s.vehicle day.id boy.id ct.id + 2 * e.quantity) := by
  constructor
  · exact sales_resubmit_idem
  · intro s d day ct boy e hday hct hne hboy hcount
    have e1 := tv_once s d day ct boy e hday hct hne hboy
    rw [e1]
    simp only
    have hday2 : getOpenDay ({ s with
        dss := s.dss.map (fun r => if r.dayId == day.id && r.typeId == ct.id then { r with tv_out_qty := r.tv_out_qty + e.quantity } else r),
        vehicle := upsertVehicle s.vehicle ⟨day.id, boy.id, ct.id, e.quantity⟩ } : Store) d
        = .ok day := hday
    have hct2 : ({ s with
        dss := s.dss.map (fun r => if r.dayId == day.id && r.typeId == ct.id then { r with tv_out_qty := r.tv_out_qty + e.quantity } else r),
        vehicle := upsertVehicle s.vehicle ⟨day.id, boy.id, ct.id, e.quantity⟩ } : Store).types.find?
          (fun c => c.name == e.cylinder_type) = some ct := hct
    have hboy2 : ({ s with
        dss := s.dss.map (fun r => if r.dayId == day.id && r.typeId == ct.id then { r with tv_out_qty := r.tv_out_qty + e.quantity } else r),
        vehicle := upsertVehicle s.vehicle ⟨day.id, boy.id, ct.id, e.quantity⟩ } : Store).boys.find?
          (fun b => b.name == e.delivery_boy_name) = some boy := hboy
    have e2 := tv_once _ d day ct boy e hday2 hct2 hne hboy2
    rw [e2]
    simp only
    refine ⟨rfl, ?_, ?_⟩
    · rw [List.map_map, zip_map_self]
      intro p hp h1 h2
      obtain ⟨a, ha, rfl⟩ := List.mem_map.mp hp
      simp only [Function.comp_apply]
      have hcond : (a.dayId == day.id && a.typeId == ct.id) = true := by
        simp only [Bool.and_eq_true, beq_iff_eq]
        exact ⟨h1, h2⟩
      rw [if_pos hcond, if_pos hcond]
      show a.tv_out_qty + e.quantity + e.quantity = a.tv_out_qty + 2 * e.quantity
      ring
    · have hA := upsertVehicle_sum_at s.vehicle ⟨day.id, boy.id, ct.id, e.quantity⟩
        day.id boy.id ct.id rfl rfl rfl hcount
      have hB := upsertVehicle_sum_at (upsertVehicle s.vehicle ⟨day.id, boy.id, ct.id, e.quantity⟩)
        ⟨day.id, boy.id, ct.id, e.quantity⟩ day.id boy.id ct.id rfl rfl rfl hA.2
      rw [hB.1, hA.1]
      show vehicleSum s.vehicle day.id boy.id ct.id + e.quantity + e.quantity
        = vehicleSum s.vehicle day.id boy.id ct.id + 2 * e.quantity
      ring

/-- Store with an OPEN day, one type, one agent and one blank summary
row. -/
def tvStore : Store :=
  { days := [⟨1, 10, DayStatus.OPEN⟩],
    types := [⟨7, "14.2KG", Category.DOMESTIC, true, 1⟩],
    boys := [⟨2, "Ravi", true⟩],
    dss := [{ dayId := 1, typeId := 7 }] }

def tvRow0 : DSSRow := { dayId := 1, typeId := 7 }

def tvRow2 : DSSRow := { dayId := 1, typeId := 7, tv_out_qty := 8 }

/-- Witness for C8_overwrite_vs_accumulate: one sale entry re-submitted
on tvStore, and a TV-out of 4 submitted twice accumulating to 8. -/
theorem C8_overwrite_vs_accumulate_witness :
    record_delivery_sales (record_delivery_sales tvStore 10 [⟨"Ravi", "14.2KG", 5, 1, 0⟩]).2 10
        [⟨"Ravi", "14.2KG", 5, 1, 0⟩]
      = record_delivery_sales tvStore 10 [⟨"Ravi", "14.2KG", 5, 1, 0⟩] ∧
    tvRow2.tv_out_qty = tvRow0.tv_out_qty + 2 * 4 ∧
    vehicleSum (record_tv_out (record_tv_out tvStore 10 [⟨"Ravi", "14.2KG", 4⟩]).2 10
        [⟨"Ravi", "14.2KG", 4⟩]).2.vehicle 1 2 7
      = vehicleSum tvStore.vehicle 1 2 7 + 2 * 4 := by
  have hA := C8_overwrite_vs_accumulate.1 tvStore 10 ⟨"Ravi", "14.2KG", 5, 1, 0⟩ (by decide)
  have hB := C8_overwrite_vs_accumulate.2 tvStore 10 ⟨1, 10, DayStatus.OPEN⟩
    ⟨7, "14.2KG", Category.DOMESTIC, true, 1⟩ ⟨2, "Ravi", true⟩ ⟨"Ravi", "14.2KG", 4⟩
    rfl rfl (by decide) rfl (by decide)
  exact ⟨hA, hB.2.1 (tvRow0, tvRow2) (by decide) rfl rfl, hB.2.2⟩

/-! ### Deposit recording and reconciliation (claim C9) -/

theorem upsertDeposit_same (deps : List DepositRow) (row : DepositRow)
    (hrow : row.total_deposited = row.cash_amount + row.upi_amount) :
    ∀ e ∈ upsertDeposit deps row, e.dayId = row.dayId → e.boyId = row.boyId →
      e.cash_amount = row.cash_amount ∧ e.upi_amount = row.upi_amount ∧
      e.total_deposited = row.cash_amount + row.upi_amount := by
  unfold upsertDeposit
  by_cases h : deps.any (fun x => x.dayId == row.dayId && x.boyId == row.boyId) = true
  · rw [if_pos h]
    intro e he hd hb
    obtain ⟨e0, he0, rfl⟩ := List.mem_map.mp he
    by_cases h0 : (e0.dayId == row.dayId && e0.boyId == row.boyId) = true
    · rw [if_pos h0]
      exact ⟨rfl, rfl, rfl⟩
    · rw [if_neg h0] at hd hb ⊢
      exact absurd (by simp [hd, hb]) h0
  · rw [if_neg h]
    intro e he hd hb
    rcases List.mem_append.mp he with h1 | h1
    · exfalso
      apply h
      rw [List.any_eq_true]
      exact ⟨e, h1, by simp [hd, hb]⟩
    · rw [List.mem_singleton] at h1
      rw [h1]
      exact ⟨rfl, rfl, hrow⟩

theorem upsertDeposit_exists (deps : List DepositRow) (row : DepositRow) :
    ∃ e ∈ upsertDeposit deps row, e.dayId = row.dayId ∧ e.boyId = row.boyId := by
  unfold upsertDeposit
  by_cases h : deps.any (fun x => x.dayId == row.dayId && x.boyId == row.boyId) = true
  · rw [if_pos h]
    obtain ⟨e0, he0, h0⟩ := List.any_eq_true.mp h
    refine ⟨if (e0.dayId == row.dayId && e0.boyId == row.boyId) = true then
      { e0 with cash_amount := row.cash_amount, upi_amount := row.upi_amount, total_deposited := row.cash_amount + row.upi_amount } else e0,
      List.mem_map_of_mem _ he0, ?_⟩
    rw [if_pos h0]
    simp only [Bool.and_eq_true, beq_iff_eq] at h0
    exact ⟨h0.1, h0.2⟩
  · rw [if_neg h]
    exact ⟨row, List.mem_append_right _ (List.mem_singleton_self row), rfl, rfl⟩

/-- C9: record_cash_deposits on an existing day with a known agent stores
a deposit row with total_deposited = cash + upi, overwriting any previous
row for that agent and day regardless of its contents (the conclusion
holds for every prior store, which is exactly replace-not-accumulate);
the returned view contains an item for the agent whose expected amount
defaults a missing DeliveryExpectedAmount to zero and whose variance is
total_deposited minus that expectation, plus the day's grand totals of
cash, UPI and combined deposits. -/
theorem C9_record_deposits (s : Store) (d : Nat) (day : StockDay) (boy : DeliveryBoy)
    (c : CashDeposit)
    (hday : findDay s d = some day)
    (hboy : s.boys.find? (fun b => b.name == c.delivery_boy_name) = some boy)
    (hboyid : s.boys.find? (fun b => b.id == boy.id) = some boy)
    (hcash : 0 ≤ c.cash_amount) (hupi : 0 ≤ c.upi_amount) :
    (record_cash_deposits s d [c]).1.isOk = true ∧
    (∀ e ∈ (record_cash_deposits s d [c]).2.deposits, e.dayId = day.id → e.boyId = boy.id →
      e.cash_amount = c.cash_amount ∧ e.upi_amount = c.upi_amount ∧
      e.total_deposited = c.cash_amount + c.upi_amount) ∧
    (∃ e ∈ (record_cash_deposits s d [c]).2.deposits, e.dayId = day.id ∧ e.boyId = boy.id) ∧
    (∀ out : DepositOut, (record_cash_deposits s d [c]).1 = .ok out →
      (∃ o ∈ out.deposits, o.delivery_boy_name = boy.name ∧
        o.cash_amount = c.cash_amount ∧ o.upi_amount = c.upi_amount ∧
        o.total_deposited = c.cash_amount + c.upi_amount ∧
        o.expected_amount = deaOrZero s.dea day.id boy.id ∧
        o.variance = (c.cash_amount + c.upi_amount) - deaOrZero s.dea day.id boy.id) ∧
      out.total_cash = sumBy ((record_cash_deposits s d [c]).2.deposits.filter
        (fun r => r.dayId == day.id)) (·.cash_amount) ∧
      out.total_upi = sumBy ((record_cash_deposits s d [c]).2.deposits.filter
        (fun r => r.dayId == day.id)) (·.upi_amount) ∧
      out.total_deposited = sumBy ((record_cash_deposits s d [c]).2.deposits.filter
        (fun r => r.dayId == day.id)) (·.total_deposited)) := by
  have hloop : depositLoop s.boys day.id s.deposits [c]
      = .ok (upsertDeposit s.deposits ⟨day.id, boy.id, c.cash_amount, c.upi_amount, c.cash_amount + c.upi_amount⟩) := by
    unfold depositLoop
    rw [hboy]
    simp only [depositLoop]
  have hcall : record_cash_deposits s d [c]
      = (.ok ⟨d,
          List.insertionSort (fun a b => strLe a.delivery_boy_name b.delivery_boy_name = true)
            (((upsertDeposit s.deposits ⟨day.id, boy.id, c.cash_amount, c.upi_amount, c.cash_amount + c.upi_amount⟩).filter (fun r => r.dayId == day.id)).filterMap (fun r =>
              (s.boys.find? (fun b => b.id == r.boyId)).map (fun b =>
                DepositView.mk b.name r.cash_amount r.upi_amount r.total_deposited
                  (deaOrZero s.dea day.id r.boyId)
                  (r.total_deposited - deaOrZero s.dea day.id r.boyId)))),
          sumBy ((upsertDeposit s.deposits ⟨day.id, boy.id, c.cash_amount, c.upi_amount, c.cash_amount + c.upi_amount⟩).filter (fun r => r.dayId == day.id)) (·.cash_amount),
          sumBy ((upsertDeposit s.deposits ⟨day.id, boy.id, c.cash_amount, c.upi_amount, c.cash_amount + c.upi_amount⟩).filter (fun r => r.dayId == day.id)) (·.upi_amount),
          sumBy ((upsertDeposit s.deposits ⟨day.id, boy.id, c.cash_amount, c.upi_amount, c.cash_amount + c.upi_amount⟩).filter (fun r => r.dayId == day.id)) (·.total_deposited)⟩,
        { s with deposits := upsertDeposit s.deposits ⟨day.id, boy.id, c.cash_amount, c.upi_amount, c.cash_amount + c.upi_amount⟩ }) := by
    unfold record_cash_deposits
    rw [hday]
    simp only
    rw [hloop]
  rw [hcall]
  simp only
  have hsame := upsertDeposit_same s.deposits
    ⟨day.id, boy.id, c.cash_amount, c.upi_amount, c.cash_amount + c.upi_amount⟩ rfl
  have hex := upsertDeposit_exists s.deposits
    ⟨day.id, boy.id, c.cash_amount, c.upi_amount, c.cash_amount + c.upi_amount⟩
  refine ⟨rfl, hsame, hex, ?_⟩
  intro out hout
  injection hout with hout
  rw [← hout]
  refine ⟨?_, rfl, rfl, rfl⟩
  obtain ⟨e, he, hd, hb⟩ := hex
  obtain ⟨hc1, hc2, hc3⟩ := hsame e he hd hb
  refine ⟨DepositView.mk boy.name e.cash_amount e.upi_amount e.total_deposited
    (deaOrZero s.dea day.id e.boyId) (e.total_deposited - deaOrZero s.dea day.id e.boyId), ?_, ?_⟩
  · rw [List.mem_insertionSort, List.mem_filterMap]
    refine ⟨e, List.mem_filter.mpr ⟨he, by simp [hd]⟩, ?_⟩
    rw [hb, hboyid]
    rfl
  · rw [hb]
    exact ⟨rfl, hc1, hc2, hc3, rfl, by rw [hc3]⟩

/-- Store with an existing day, one agent, and expected amount 1000. -/
def depStore : Store :=
  { days := [⟨1, 10, DayStatus.OPEN⟩],
    boys := [⟨2, "Ravi", true⟩],
    dea := [⟨1, 2, 1000⟩] }

/-- Witness for C9_record_deposits realizing the spec variance example:
expected 1000, cash 600, upi 300 gives total 900 and variance -100. -/
theorem C9_record_deposits_witness :
    (record_cash_deposits depStore 10 [⟨"Ravi", 600, 300⟩]).1.isOk = true ∧
    ((record_cash_deposits depStore 10 [⟨"Ravi", 600, 300⟩]).2.deposits.any
      (fun e => e.dayId == 1 && e.boyId == 2 && e.cash_amount == 600 &&
        e.upi_amount == 300 && e.total_deposited == 900)) = true ∧
    (((record_cash_deposits depStore 10 [⟨"Ravi", 600, 300⟩]).1.toOption.map
      (fun out => out.deposits.any (fun o => o.expected_amount == 1000 &&
        o.total_deposited == 900 && o.variance == -100))).getD false) = true := by
  have h := C9_record_deposits depStore 10 ⟨1, 10, DayStatus.OPEN⟩ ⟨2, "Ravi", true⟩
    ⟨"Ravi", 600, 300⟩ rfl rfl rfl (by decide) (by decide)
  refine ⟨h.1, ?_, ?_⟩
  · obtain ⟨e, he, hd, hb⟩ := h.2.2.1
    obtain ⟨hc1, hc2, hc3⟩ := h.2.1 e he hd hb
    rw [List.any_eq_true]
    exact ⟨e, he, by simp [hd, hb, hc1, hc2, hc3]⟩
  · cases hq : (record_cash_deposits depStore 10 [⟨"Ravi", 600, 300⟩]).1 with
    | error err =>
      rw [hq] at h
      exact Bool.noConfusion h.1
    | ok out =>
      obtain ⟨⟨o, ho, hfields⟩, _⟩ := h.2.2.2 out hq
      have he1 : o.expected_amount = 1000 := hfields.2.2.2.2.1.trans (by decide)
      have ht : o.total_deposited = 900 := hfields.2.2.2.1.trans (by decide)
      have hv : o.variance = -100 := hfields.2.2.2.2.2.trans (by decide)
      show out.deposits.any (fun o => o.expected_amount == 1000 &&
        o.total_deposited == 900 && o.variance == -100) = true
      rw [List.any_eq_true]
      exact ⟨o, ho, by simp [he1, ht, hv]⟩

/-! ### Silent loss without summary rows (claim C10) -/

/-- Store with an OPEN day, a known type and a known agent but no
daily_stock_summary rows (initializeOpeningStock never ran). -/
def lostStore : Store :=
  { days := [⟨1, 10, DayStatus.OPEN⟩],
    types := [⟨7, "14.2KG", Category.DOMESTIC, true, 1⟩],
    boys := [⟨2, "Ravi", true⟩] }

/-- C10 counterexample: with no summary rows, record_tv_out still
succeeds but does not leave the store unchanged — the handling agent
resolves, so a DeliveryVehicleEmptyStock audit row is inserted. -/
theorem C10_counterexample :
    (record_tv_out lostStore 10 [⟨"Ravi", "14.2KG", 5⟩]).1.isOk = true ∧
    (record_tv_out lostStore 10 [⟨"Ravi", "14.2KG", 5⟩]).2 ≠ lostStore ∧
    (record_tv_out lostStore 10 [⟨"Ravi", "14.2KG", 5⟩]).2.vehicle
      = [⟨1, 2, 7, 5⟩] := by
  refine ⟨by decide, by decide, by decide⟩

theorem iocl_loop_noop (s : Store) (dayId : Nat)
    (hnodss : ∀ r ∈ s.dss, r.dayId ≠ dayId) :
    ∀ movements : List IOCLMovement,
      (∀ m ∈ movements,
        (s.types.find? (fun c => c.name == m.cylinder_type && c.is_active)).isSome = true) →
      ioclLoop s.types dayId s.dss movements = .ok s.dss := by
  intro movements
  induction movements with
  | nil => intro _; rfl
  | cons m rest ih =>
    intro hall
    have hm := hall m (List.mem_cons_self m rest)
    obtain ⟨ct, hct⟩ := Option.isSome_iff_exists.mp hm
    unfold ioclLoop
    rw [hct]
    simp only
    have hmap : s.dss.map (fun r =>
        if (r.dayId == dayId && r.typeId == ct.id) = true then
          { r with item_receipt := m.received, item_return := m.returned }
        else r) = s.dss := by
      apply map_self_of_eq
      intro r hr
      rw [if_neg]
      simp only [Bool.and_eq_true, beq_iff_eq, not_and]
      intro hd
      exact absurd hd (hnodss r hr)
    rw [hmap]
    exact ih (fun x hx => hall x (List.mem_cons_of_mem _ hx))

theorem tv_loop_dss_noop (s : Store) (dayId : Nat)
    (hnodss : ∀ r ∈ s.dss, r.dayId ≠ dayId) :
    ∀ (entries : List TVOutEntry) (vehicle : List VehicleRow),
      (∀ e ∈ entries,
        (s.types.find? (fun c => c.name == e.cylinder_type)).isSome = true) →
      ∃ v', tvLoop s.types s.boys dayId s.dss vehicle entries = .ok (s.dss, v') := by
  intro entries
  induction entries with
  | nil => exact fun vehicle _ => ⟨vehicle, rfl⟩
  | cons e rest ih =>
    intro vehicle hall
    have hm := hall e (List.mem_cons_self e rest)
    obtain ⟨ct, hct⟩ := Option.isSome_iff_exists.mp hm
    unfold tvLoop
    rw [hct]
    simp only
    have hmap : s.dss.map (fun r =>
        if (r.dayId == dayId && r.typeId == ct.id) = true then
          { r with tv_out_qty := r.tv_out_qty + e.quantity }
        else r) = s.dss := by
      apply map_self_of_eq
      intro r hr
      rw [if_neg]
      simp only [Bool.and_eq_true, beq_iff_eq, not_and]
      intro hd
      exact absurd hd (hnodss r hr)
    rw [hmap]
    exact ih _ (fun x hx => hall x (List.mem_cons_of_mem _ hx))

/-- C10 (amended): on an OPEN day with no summary rows, both operations
succeed reporting the number of entries processed and their UPDATEs of
daily_stock_summary match zero rows, silently losing the submitted
quantities: update_iocl_movements returns the store fully unchanged, and
record_tv_out leaves daily_stock_summary unchanged (though it may still
insert vehicle-empty audit rows for resolvable agents). -/
theorem C10_silent_loss (s : Store) (d : Nat) (day : StockDay)
    (hday : findDay s d = some day) (hopen : day.status = DayStatus.OPEN)
    (hnodss : ∀ r ∈ s.dss, r.dayId ≠ day.id) :
    (∀ movements : List IOCLMovement,
      (∀ m ∈ movements,
        (s.types.find? (fun c => c.name == m.cylinder_type && c.is_active)).isSome = true) →
      update_iocl_movements s d movements = (.ok ⟨d, movements.length⟩, s)) ∧
    (∀ entries : List TVOutEntry,
      (∀ e ∈ entries,
        (s.types.find? (fun c => c.name == e.cylinder_type)).isSome = true) →
      (record_tv_out s d entries).1 = .ok ⟨d, entries.length⟩ ∧
      (record_tv_out s d entries).2.dss = s.dss) := by
  have hg : getOpenDay s d = .ok day := by
    unfold getOpenDay
    rw [hday]
    simp only
    rw [if_neg (not_not_intro hopen)]
  constructor
  · intro movements hall
    unfold update_iocl_movements
    rw [hg]
    simp only
    rw [iocl_loop_noop s day.id hnodss movements hall]
  · intro entries hall
    obtain ⟨v', hv⟩ := tv_loop_dss_noop s day.id hnodss entries s.vehicle hall
    unfold record_tv_out
    rw [hg]
    simp only
    rw [hv]
    exact ⟨rfl, rfl⟩

/-- Witness for C10_silent_loss on lostStore. -/
theorem C10_silent_loss_witness :
    update_iocl_movements lostStore 10 [⟨"14.2KG", 50, 20⟩]
      = (.ok ⟨10, 1⟩, lostStore) ∧
    (record_tv_out lostStore 10 [⟨"Ravi", "14.2KG", 5⟩]).1 = .ok ⟨10, 1⟩ ∧
    (record_tv_out lostStore 10 [⟨"Ravi", "14.2KG", 5⟩]).2.dss = lostStore.dss := by
  have h := C10_silent_loss lostStore 10 ⟨1, 10, DayStatus.OPEN⟩ rfl rfl (by decide)
  exact ⟨h.1 [⟨"14.2KG", 50, 20⟩] (by decide),
    (h.2 [⟨"Ravi", "14.2KG", 5⟩] (by decide)).1,
    (h.2 [⟨"Ravi", "14.2KG", 5⟩] (by decide)).2⟩
